import Mathlib

/-!
# Verification of the dynamic scoped-exception library

A shallow embedding of the TypeScript source in `src/exception.ts`
(the final iteration of the library): the scope registry, the call-site
scope resolver, the message-template engine, the dynamic exception
factory, and the cast / clone / snapshot engine, together with theorems
settling the specification claims.

JavaScript strings are modelled as Lean `String`s, JS `Map`s as
insertion-ordered association lists, JS reference identity of the lazily
created kind-descriptor classes as a creation counter (`classId`), and
the host's variadic argument values as the inductive `JSVal`.  Host
behaviour that the core merely consumes (stack-trace text, the
`import.meta.dirname` string, an object's `String()` and
`JSON.stringify` output) is passed in as data.
-/

namespace ExcSpec

/-! ## JS string primitives -/

/-- The character set matched by JS `\s`, `String.prototype.trim` and the
whitespace skipped by `Number(string)` (ASCII part plus NBSP/BOM). -/
def jsIsWs (c : Char) : Bool :=
  c = ' ' || c = '\t' || c = '\n' || c = '\r' ||
  c = '\x0b' || c = '\x0c' || c = ' ' || c = '﻿'

/-- JS `String.prototype.trim` on a character list. -/
def jsTrimList (l : List Char) : List Char :=
  ((l.dropWhile jsIsWs).reverse.dropWhile jsIsWs).reverse

/-- JS `String.prototype.trim`. -/
def jsTrim (s : String) : String :=
  ⟨jsTrimList s.data⟩

/-- JS `String.prototype.replace` with a *string* pattern replaces only the
first occurrence (the empty pattern matches at position 0). -/
def replaceFirstList (pat rep : List Char) : List Char → List Char
  | [] => if pat.isPrefixOf ([] : List Char) then rep else []
  | c :: cs =>
    if pat.isPrefixOf (c :: cs) then rep ++ (c :: cs).drop pat.length
    else c :: replaceFirstList pat rep cs

/-- JS `s.replace(pat, rep)` for string patterns (first occurrence only). -/
def jsReplaceFirst (s pat rep : String) : String :=
  ⟨replaceFirstList pat.data rep.data s.data⟩

/-- First index of `pat` in `hay` starting from offset `i`; `none` if absent. -/
def idxOfAux (pat : List Char) : List Char → Nat → Option Nat
  | [], i => if pat = [] then some i else none
  | c :: cs, i =>
    if pat.isPrefixOf (c :: cs) then some i else idxOfAux pat cs (i + 1)

/-- Substring containment on character lists. -/
def infixOfList (pat hay : List Char) : Bool :=
  (idxOfAux pat hay 0).isSome

/-- JS `a.includes(b)` (substring containment). -/
def jsIncludes (s sub : String) : Bool :=
  infixOfList sub.data s.data

/-- JS `s.indexOf(sub)`: first occurrence or `-1`. -/
def jsIndexOf (s sub : String) : Int :=
  match idxOfAux sub.data s.data 0 with
  | some i => (i : Int)
  | none => -1

/-- JS `s.lastIndexOf(sub)`: last occurrence or `-1`. -/
def jsLastIndexOf (s sub : String) : Int :=
  match ((List.range (s.data.length + 1)).filter
      (fun i => sub.data.isPrefixOf (s.data.drop i))).max? with
  | some i => (i : Int)
  | none => -1

/-- Normalise a JS `slice` index against a length: negative indices count
from the end, everything is clamped into `[0, len]`. -/
def jsNormIdx (len : Nat) (i : Int) : Nat :=
  if i < 0 then ((len : Int) + i).toNat else min i.toNat len

/-- JS `s.slice(a, b)`. -/
def jsSlice (s : String) (a b : Int) : String :=
  ⟨(s.data.take (jsNormIdx s.data.length b)).drop (jsNormIdx s.data.length a)⟩

/-- JS `s.slice(a)`. -/
def jsSliceFrom (s : String) (a : Int) : String :=
  jsSlice s a (s.data.length : Int)

/-- JS `array.join('')` for an array of strings. -/
def joinAll : List String → String
  | [] => ""
  | s :: rest => s ++ joinAll rest

/-- JS `s.split(sep)` on a character list, for a one-character separator
(every separator the source passes to `split` is one character). -/
def splitChar (sep : Char) : List Char → List (List Char)
  | [] => [[]]
  | c :: cs =>
    match splitChar sep cs with
    | [] => [[c]]
    | h :: t => if c = sep then [] :: h :: t else (c :: h) :: t

/-- JS `s.split(sep)` for a one-character separator. -/
def jsSplit (s : String) (sep : Char) : List String :=
  (splitChar sep s.data).map (fun l => ⟨l⟩)

/-- JS `array.join(sep)` for an array of strings. -/
def joinSep (sep : String) : List String → String
  | [] => ""
  | [s] => s
  | s :: rest => s ++ sep ++ joinSep sep rest

/-! ## JS `Number(string)` conversion

`Number(name)` is used by the scoped-exception constructor to auto-derive
the `code` field.  A JS number is NaN, ±Infinity or a finite value
(modelled exactly as a rational; every value the theorems touch is
representable exactly in an IEEE double). -/

inductive JSNum where
  | nan
  | posInf
  | negInf
  | val (q : ℚ)
deriving DecidableEq

/-- Digit-list value in a given base (digits assumed valid). -/
def digitsVal (base : Nat) (cs : List Char) : Nat :=
  cs.foldl (fun a c =>
    a * base + (if c.isDigit then c.toNat - 48
      else if c ≥ 'a' && c ≤ 'f' then c.toNat - 87
      else if c ≥ 'A' && c ≤ 'F' then c.toNat - 55 else 0)) 0

def isHexDigit (c : Char) : Bool :=
  c.isDigit || (c ≥ 'a' && c ≤ 'f') || (c ≥ 'A' && c ≤ 'F')

def isOctDigit (c : Char) : Bool := c ≥ '0' && c ≤ '7'

def isBinDigit (c : Char) : Bool := c = '0' || c = '1'

/-- Parse the exponent part `e[+-]?digits` (already past the `e`/`E`);
returns the signed exponent if the whole remainder is consumed. -/
def parseExponent (cs : List Char) : Option Int :=
  let (sgn, rest) := match cs with
    | '+' :: r => ((1 : Int), r)
    | '-' :: r => ((-1 : Int), r)
    | r => ((1 : Int), r)
  let ds := rest.takeWhile Char.isDigit
  if ds = [] ∨ rest.drop ds.length ≠ [] then none
  else some (sgn * (digitsVal 10 ds : Int))

/-- Parse a `StrUnsignedDecimalLiteral` (whole list must be consumed). -/
def parseUnsignedDec (cs : List Char) : JSNum :=
  if cs = "Infinity".data then .posInf
  else
    let ip := cs.takeWhile Char.isDigit
    let rest1 := cs.drop ip.length
    let core : Option (ℚ × List Char) :=
      match rest1 with
      | '.' :: rest2 =>
        let fp := rest2.takeWhile Char.isDigit
        if ip = [] ∧ fp = [] then none
        else some ((digitsVal 10 ip : ℚ) +
          (digitsVal 10 fp : ℚ) / (10 : ℚ) ^ fp.length, rest2.drop fp.length)
      | _ => if ip = [] then none else some ((digitsVal 10 ip : ℚ), rest1)
    match core with
    | none => .nan
    | some (q, rest) =>
      match rest with
      | [] => .val q
      | 'e' :: rest2 =>
        match parseExponent rest2 with
        | some e => .val (q * (10 : ℚ) ^ e)
        | none => .nan
      | 'E' :: rest2 =>
        match parseExponent rest2 with
        | some e => .val (q * (10 : ℚ) ^ e)
        | none => .nan
      | _ => .nan

/-- JS `Number(string)` (the `StringNumericLiteral` grammar: optional
whitespace, then a signed decimal literal, `Infinity`, or an unsigned
`0x`/`0o`/`0b` literal; anything else is NaN). -/
def jsToNumber (s : String) : JSNum :=
  match jsTrimList s.data with
  | [] => .val 0
  | '0' :: x :: rest =>
    if x = 'x' ∨ x = 'X' then
      if rest ≠ [] ∧ rest.all isHexDigit then .val (digitsVal 16 rest : ℚ) else .nan
    else if x = 'o' ∨ x = 'O' then
      if rest ≠ [] ∧ rest.all isOctDigit then .val (digitsVal 8 rest : ℚ) else .nan
    else if x = 'b' ∨ x = 'B' then
      if rest ≠ [] ∧ rest.all isBinDigit then .val (digitsVal 2 rest : ℚ) else .nan
    else parseUnsignedDec ('0' :: x :: rest)
  | '+' :: rest => parseUnsignedDec rest
  | '-' :: rest =>
    match parseUnsignedDec rest with
    | .posInf => .negInf
    | .val q => .val (-q)
    | _ => .nan
  | t => parseUnsignedDec t

/-- Decimal rendering of a JS number for string conversion (only the
integer case is ever exercised by the library's own values). -/
def jsNumToString : JSNum → String
  | .nan => "NaN"
  | .posInf => "Infinity"
  | .negInf => "-Infinity"
  | .val q => if q.den = 1 then toString q.num else toString q

/-! ## Data model: global configuration -/

inductive Encoding where
  | json
  | basic
deriving DecidableEq

/-- `ExcpConf`, the process-wide configuration record. -/
structure ExcpConf where
  template : List String
  maxScopedDefs : Nat
  encoding : Encoding
  delimiter : String
deriving DecidableEq

/-- The initial value of the module-level `globalConfig` variable. -/
def defaultConf : ExcpConf :=
  ⟨["[$label] ", "$error", ": $message", " ($file)"], 100, .json, " "⟩

/-- A `Partial<ExcpConf>` override as accepted by `setGlobalConfig`. -/
structure PartialConf where
  template : Option (List String) := none
  maxScopedDefs : Option Nat := none
  encoding : Option Encoding := none
  delimiter : Option String := none
deriving DecidableEq

/-- The object spread `{ ...globalConfig, ...config }`. -/
def mergeConf (g : ExcpConf) (p : PartialConf) : ExcpConf :=
  { template := p.template.getD g.template
    maxScopedDefs := p.maxScopedDefs.getD g.maxScopedDefs
    encoding := p.encoding.getD g.encoding
    delimiter := p.delimiter.getD g.delimiter }

/-! ## Data model: values and instances

`ErrObj` is an error object: a host `Error`, a plain `Exception`, or an
instance of a dynamically created `ScopedException` class (tagged with
that class's creation ordinal `classId`).  `JSVal` is any value a caller
may pass: the construction arguments, `cast` inputs, and so on.  A plain
non-error object is opaque to the core except for three host-determined
aspects the code consumes: its `message` property (if present), its
`JSON.stringify` rendering (`none` models a thrown `TypeError`, e.g. on a
circular structure), and its `String()` conversion. -/

inductive ErrClass where
  | native
  | base
  | scoped (classId : Nat)
deriving DecidableEq

inductive ErrObj where
  | mk (cls : ErrClass) (name message : String) (cause : Option ErrObj)
      (causeNonEnum : Bool) (stack : Option String) (scopeIndex : Nat)
      (code : Option JSNum) (label : Option String) (originalMessage : String)

inductive JSVal where
  | vundef
  | vnull
  | vbool (b : Bool)
  | vint (n : Int)
  | vstr (s : String)
  | vobj (message : Option JSVal) (jsonRepr : Option String) (strRepr : String)
  | verr (e : ErrObj)

def ErrObj.cls : ErrObj → ErrClass
  | .mk c _ _ _ _ _ _ _ _ _ => c

def ErrObj.name : ErrObj → String
  | .mk _ n _ _ _ _ _ _ _ _ => n

def ErrObj.message : ErrObj → String
  | .mk _ _ m _ _ _ _ _ _ _ => m

def ErrObj.cause : ErrObj → Option ErrObj
  | .mk _ _ _ c _ _ _ _ _ _ => c

def ErrObj.causeNonEnum : ErrObj → Bool
  | .mk _ _ _ _ ne _ _ _ _ _ => ne

def ErrObj.stack : ErrObj → Option String
  | .mk _ _ _ _ _ st _ _ _ _ => st

def ErrObj.scopeIndex : ErrObj → Nat
  | .mk _ _ _ _ _ _ i _ _ _ => i

def ErrObj.code : ErrObj → Option JSNum
  | .mk _ _ _ _ _ _ _ c _ _ => c

def ErrObj.label : ErrObj → Option String
  | .mk _ _ _ _ _ _ _ _ l _ => l

def ErrObj.originalMessage : ErrObj → String
  | .mk _ _ _ _ _ _ _ _ _ om => om

/-- `instance.stack = s` (the one post-construction mutation in `from`). -/
def setStack (e : ErrObj) (s : Option String) : ErrObj :=
  match e with
  | .mk c n m cz ne _ i cd l om => .mk c n m cz ne s i cd l om

/-- `Object.defineProperty(instance, 'cause', { value, enumerable: false })`. -/
def setCause (e : ErrObj) (cz : Option ErrObj) : ErrObj :=
  match e with
  | .mk c n m _ _ st i cd l om => .mk c n m cz true st i cd l om

/-! ## String conversion and encoding helpers -/

/-- JS truthiness. -/
def jsFalsy : JSVal → Bool
  | .vundef => true
  | .vnull => true
  | .vbool b => !b
  | .vint n => n == 0
  | .vstr s => s == ""
  | _ => false

/-- `Error.prototype.toString`. -/
def errToString (e : ErrObj) : String :=
  if e.name = "" then e.message
  else if e.message = "" then e.name
  else e.name ++ ": " ++ e.message

/-- JS `String(v)`. -/
def jsToString : JSVal → String
  | .vundef => "undefined"
  | .vnull => "null"
  | .vbool b => if b then "true" else "false"
  | .vint n => toString n
  | .vstr s => s
  | .vobj _ _ r => r
  | .verr e => errToString e

/-- Element conversion used by `Array.prototype.join`: `null` and
`undefined` become the empty string, everything else its `String()`. -/
def jsJoinElem : JSVal → String
  | .vundef => ""
  | .vnull => ""
  | v => jsToString v

/-- JS `args.join(sep)`. -/
def jsJoin (sep : String) (args : List JSVal) : String :=
  joinSep sep (args.map jsJoinElem)

def jsonEscapeChar (c : Char) : String :=
  if c = '"' then "\\\""
  else if c = '\\' then "\\\\"
  else if c = '\n' then "\\n"
  else if c = '\t' then "\\t"
  else if c = '\r' then "\\r"
  else String.singleton c

def jsonEscape (s : String) : String :=
  joinAll (s.data.map jsonEscapeChar)

def jsonQuote (s : String) : String :=
  "\"" ++ jsonEscape s ++ "\""

/-- JSON rendering of a JS number (`NaN`/`Infinity` serialise as `null`). -/
def jsonNum : JSNum → String
  | .val q => if q.den = 1 then toString q.num else toString q
  | _ => "null"

/-- `JSON.stringify` of an error object.  A host `Error` has no own
enumerable properties, so it serialises as the empty object; instances of
the library's classes expose their own class fields (`name`,
`scopeIndex`, `code` when defined, and for scoped kinds
`originalMessage`) in property-creation order. -/
def jsonOfErr (e : ErrObj) : String :=
  match e.cls with
  | .native => "\x7b\x7d"
  | .base =>
    "\x7b" ++ jsonQuote "name" ++ ":" ++ jsonQuote e.name ++ "," ++
      jsonQuote "scopeIndex" ++ ":" ++ toString e.scopeIndex ++
      (match e.code with
       | some n => "," ++ jsonQuote "code" ++ ":" ++ jsonNum n
       | none => "") ++ "\x7d"
  | .scoped _ =>
    "\x7b" ++ jsonQuote "name" ++ ":" ++ jsonQuote e.name ++ "," ++
      jsonQuote "scopeIndex" ++ ":" ++ toString e.scopeIndex ++
      (match e.code with
       | some n => "," ++ jsonQuote "code" ++ ":" ++ jsonNum n
       | none => "") ++
      "," ++ jsonQuote "originalMessage" ++ ":" ++ jsonQuote e.originalMessage ++
      "\x7d"

/-- One step of `safeEncode`'s structured mapping: falsy items pass
through (and are later stringified by `join`), `typeof item === 'object'`
items go through `JSON.stringify` (which may throw, modelled as `none`),
everything else passes through. -/
def encodeItem (v : JSVal) : Option String :=
  if jsFalsy v then some (jsJoinElem v)
  else match v with
    | .vobj _ j _ => j
    | .verr e => some (jsonOfErr e)
    | _ => some (jsJoinElem v)

/-- The `.map` over all arguments: the whole traversal throws (yields
`none`) as soon as one item's structured encoding throws. -/
def encodeAll : List JSVal → Option (List String)
  | [] => some []
  | v :: rest =>
    match encodeItem v, encodeAll rest with
    | some s, some ss => some (s :: ss)
    | _, _ => none

/-- `safeEncode(...args)`: under `basic` encoding a plain
delimiter-join; otherwise per-item structured encoding joined by a
single space, falling back to the plain delimiter-join for the whole
argument list if any item's structured encoding throws. -/
def safeEncode (c : ExcpConf) (args : List JSVal) : String :=
  if c.encoding = .basic then jsJoin c.delimiter args
  else
    match encodeAll args with
    | some parts => joinSep " " parts
    | none => jsJoin c.delimiter args

/-- `getPossibleCause(...args)`: the first argument that is an instance
of `Error` (or `Exception`, which extends it). -/
def getPossibleCause (args : List JSVal) : Option ErrObj :=
  match args.find? (fun v => match v with | .verr _ => true | _ => false) with
  | some (.verr e) => some e
  | _ => none

/-! ## Message template engine -/

/-- The per-block step of `interpolateTemplate`: the first placeholder
whose key occurs in the block is the one the block references; if its
value is absent or empty the block is dropped (`undefined`), otherwise
the first occurrence of the key is substituted. -/
def renderBlock (vars : List (String × Option String)) (block : String) :
    Option String :=
  match vars.find? (fun kv => jsIncludes block kv.1) with
  | none => none
  | some (_, none) => none
  | some (k, some v) => if v = "" then none else some (jsReplaceFirst block k v)

/-- `interpolateTemplate`: map each template block, discard the dropped
ones, and concatenate the survivors with no added separators. -/
def interpolateTemplate (c : ExcpConf) (vars : List (String × Option String)) :
    String :=
  joinAll ((c.template.map (renderBlock vars)).filterMap id)

/-! ## Call-site scope resolver (stack-text parsing) -/

structure StackInfo where
  filePath : String
  fileName : String
  lineNumbers : List JSNum
deriving DecidableEq

/-- `getStackInfo(stack?)`: parse the last parenthesised group of the
trace text; missing or empty stack text yields `undefined`. -/
def getStackInfo : Option String → Option StackInfo
  | none => none
  | some stack =>
    if stack = "" then none
    else
      let lastOpen := jsLastIndexOf stack "("
      let infoString := jsSlice stack (lastOpen + 1) (jsLastIndexOf stack ")")
      let lineNumIndex := jsIndexOf infoString ":" + 1
      let filePath := jsSlice infoString 0 (lineNumIndex - 1)
      let lineNumbers :=
        (jsSplit (jsSliceFrom infoString lineNumIndex) ':').map jsToNumber
      let fileName := jsSliceFrom filePath (jsLastIndexOf filePath "/" + 1)
      some ⟨filePath, fileName, lineNumbers⟩

/-- The lazily derived `fileName` getter of an instance. -/
def fileNameOf (stack : Option String) : Option String :=
  (getStackInfo stack).map (·.fileName)

/-- Length of the common path-segment prefix (the `while` loop of
`getRelativePath`). -/
def commonPrefixLen : List String → List String → Nat
  | a :: as, b :: bs => if a = b then commonPrefixLen as bs + 1 else 0
  | _, _ => 0

/-- `getRelativePath(fullPath)` relative to the resolver's own directory
(`import.meta.dirname`, passed in as `dirname`). -/
def getRelativePath (dirname fullPath : String) : String :=
  let parts1 := (jsSplit dirname '/').map jsTrim
  let parts2 := jsSplit fullPath '/'
  joinSep "/" (parts2.drop (commonPrefixLen parts1 parts2))

structure Frame where
  filePath : String
  relativePath : String
  lineNumber : Option String
  column : Option String
deriving DecidableEq

/-- `getStackFrames(stack)`: keep the lines that look like source
locations, cut each at its first path separator, trim it, drop the first
closing parenthesis, and split into path / line / column. -/
def getStackFrames (dirname stack : String) : List Frame :=
  (((jsSplit stack '\n').filter (fun line =>
      jsIncludes line ".ts:" || jsIncludes line ".js:" ||
      (jsIncludes line "/" && jsIncludes line "." && jsIncludes line ":"))).map
    (fun line => jsReplaceFirst (jsTrim (jsSliceFrom line (jsIndexOf line "/"))) ")" "")).map
    (fun line =>
      let parts := jsSplit line ':'
      let filePath := (parts.get? 0).getD ""
      ⟨filePath, getRelativePath dirname filePath, parts.get? 1, parts.get? 2⟩)

/-! ## Scope registry and the dynamic exception factory -/

/-- A dynamically created kind descriptor (one `ScopedException` class).
`classId` is the class object's creation ordinal: two descriptors are the
same JS object exactly when their `classId`s agree. -/
structure KindDescriptor where
  classId : Nat
  name : String
  labelName : Option String
  scopeKey : String
  scopedIndex : Nat
deriving DecidableEq

/-- The module-level mutable state: the captured `conf` alias, the
rebindable `globalConfig` variable, the scope registry
(`globalDefinitions`, a `Map` of `Map`s, both insertion-ordered), the
next class-object id, and the count of collision warnings logged. -/
structure GlobalState where
  conf : ExcpConf
  globalConfig : ExcpConf
  defs : List (String × List (String × KindDescriptor))
  nextClassId : Nat
  warnings : Nat
deriving DecidableEq

/-- Module-load state: `conf` is bound to the same record `globalConfig`
holds (`const conf = globalConfig`). -/
def initState : GlobalState :=
  ⟨defaultConf, defaultConf, [], 0, 0⟩

/-- `Exception.setGlobalConfig`: rebinds the `globalConfig` variable to a
fresh merged record.  The `conf` alias keeps referring to the original
record and is not touched. -/
def setGlobalConfig (p : PartialConf) (st : GlobalState) : GlobalState :=
  { st with globalConfig := mergeConf st.globalConfig p }

/-- JS `Map.prototype.get` on an insertion-ordered association list
(keys are unique, so first match is the entry). -/
def lookupA {α : Type} : List (String × α) → String → Option α
  | [], _ => none
  | (k2, v2) :: rest, k => if k2 = k then some v2 else lookupA rest k

/-- JS `Map.prototype.set`: update in place, or append a new entry. -/
def setA {α : Type} : List (String × α) → String → α → List (String × α)
  | [], k, v => [(k, v)]
  | (k2, v2) :: rest, k, v =>
    if k2 = k then (k, v) :: rest else (k2, v2) :: setA rest k v

/-- The default scope name: the relative path of the last qualifying
stack frame of the dummy capture, or `"global"`. -/
def effectiveScopeName (dirname : String) (stack : Option String) : String :=
  match (getStackFrames dirname (stack.getD "")).getLast? with
  | some f => f.relativePath
  | none => "global"

/-- `options.labelName ? [options.labelName, scopeName].join(':') :
scopeName` (an empty label is falsy). -/
def labeledScopeKey (labelName : Option String) (scopeName : String) : String :=
  match labelName with
  | some l => if l = "" then scopeName else l ++ ":" ++ scopeName
  | none => scopeName

structure DefOptions where
  errorName : String
  labelName : Option String
deriving DecidableEq

/-- The registration body of `defineScopedExcption` (lines 147-195),
after the scope key has been resolved: get-or-create the scope's map
(`getScopedDefinitions`), and either return the already-registered
descriptor (logging a collision warning) or create, index and register a
fresh one. -/
def defineCore (key : String) (opts : DefOptions) (st : GlobalState) :
    KindDescriptor × GlobalState :=
  let defs1 := if (lookupA st.defs key).isSome then st.defs else setA st.defs key []
  let scope := (lookupA defs1 key).getD []
  match lookupA scope opts.errorName with
  | some d => (d, { st with defs := defs1, warnings := st.warnings + 1 })
  | none =>
    let d : KindDescriptor :=
      ⟨st.nextClassId, opts.errorName, opts.labelName, key, scope.length⟩
    (d, { st with defs := setA defs1 key (scope ++ [(opts.errorName, d)]),
                  nextClassId := st.nextClassId + 1 })

/-- `defineScopedExcption`: resolve the scope key from the dummy
capture's stack text (lines 134-145), then register. -/
def defineScopedExcption (dirname : String) (opts : DefOptions)
    (stack : Option String) (st : GlobalState) : KindDescriptor × GlobalState :=
  defineCore (labeledScopeKey opts.labelName (effectiveScopeName dirname stack))
    opts st

/-- One factory request: the options plus the stack text the dummy
`new Exception()` happens to capture at that call site. -/
structure Request where
  opts : DefOptions
  stack : Option String
deriving DecidableEq

def runRequests (dirname : String) : List Request → GlobalState → GlobalState
  | [], st => st
  | r :: rest, st =>
    runRequests dirname rest (defineScopedExcption dirname r.opts r.stack st).2

/-! ## Instance construction -/

/-- `new ScopedException(...args)` for the kind `k`, under the
configuration record the module-level `conf` alias refers to, with
`stack` the trace text the host attaches to the new instance. -/
def mkScopedInstance (c : ExcpConf) (k : KindDescriptor) (args : List JSVal)
    (stack : Option String) : ErrObj :=
  let baseMsg := safeEncode c args
  let cause := getPossibleCause args
  let code := match jsToNumber k.name with
    | .nan => none
    | n => some n
  let msg := interpolateTemplate c
    [("$label", k.labelName), ("$message", some baseMsg),
     ("$error", some k.name), ("$file", fileNameOf stack)]
  .mk (.scoped k.classId) k.name msg cause true stack k.scopedIndex code
    k.labelName baseMsg

/-- Classification `ScopedException.is`: an `instanceof` check against
that particular class object. -/
def scopedIs (k : KindDescriptor) (v : JSVal) : Bool :=
  match v with
  | .verr e => e.cls = .scoped k.classId
  | _ => false

/-- Classification `Exception.is`: `instanceof Exception` holds for base
instances and for every scoped kind's instances, never for host errors
or non-error values. -/
def exceptionIs (v : JSVal) : Bool :=
  match v with
  | .verr e => match e.cls with | .native => false | _ => true
  | _ => false

/-! ## Snapshots: `toObject`, `from`, `clone`, `cast` -/

/-- Scan for the end of the anchored lazy match `^\[.*?\]\s+`: the first
`]` that is followed by at least one whitespace character, with no
newline before it (`.` does not cross lines); returns the remainder
after the greedy `\s+`. -/
def findLabelEnd : List Char → Option (List Char)
  | [] => none
  | c :: tail =>
    if c = ']' && (match tail.head? with | some w => jsIsWs w | none => false) then
      some (tail.dropWhile jsIsWs)
    else if c = '\n' then none
    else findLabelEnd tail

/-- `message.replace(/^\[.*?\]\s+/, '')`. -/
def stripLabelPrefix (s : String) : String :=
  match s.data with
  | '[' :: rest =>
    match findLabelEnd rest with
    | some remainder => ⟨remainder⟩
    | none => s
  | _ => s

def isWordChar (c : Char) : Bool :=
  c.isAlpha || c.isDigit || c = '_'

/-- `message.replace(/^[A-Za-z0-9_]+:\s*/, '')`: a maximal non-empty run
of word characters immediately followed by a colon, then any
whitespace.  (Backtracking cannot help: a shorter run would put a word
character where the colon must match.) -/
def stripNamePrefix (s : String) : String :=
  let run := s.data.takeWhile isWordChar
  let rest := s.data.drop run.length
  if run ≠ [] ∧ rest.head? = some ':' then ⟨(rest.drop 1).dropWhile jsIsWs⟩
  else s

/-- The structural snapshot produced by `toObject`. -/
structure Snapshot where
  name : String
  message : String
  rawMessage : String
  label : Option String
  scopeIndex : Nat
  stack : Option String
  cause : Option ErrObj
  fileName : Option String

/-- `instance.toObject()`. -/
def toObject (e : ErrObj) : Snapshot :=
  { name := e.name
    message := e.message
    rawMessage := jsTrim (stripNamePrefix (stripLabelPrefix e.message))
    label := e.label
    scopeIndex := e.scopeIndex
    stack := e.stack
    cause := e.cause
    fileName := fileNameOf e.stack }

/-- `ScopedException.from(snapshot)` for the kind `k`: reconstruct from
`rawMessage` (and `cause`, passed as a second argument when truthy), then
overwrite the fresh instance's stack with the snapshot's when the latter
is truthy.  `freshStack` is the trace text the host attaches to the
reconstruction call site. -/
def fromSnapshot (c : ExcpConf) (k : KindDescriptor) (data : Snapshot)
    (freshStack : Option String) : ErrObj :=
  let inst := match data.cause with
    | some cz => mkScopedInstance c k [.vstr data.rawMessage, .verr cz] freshStack
    | none => mkScopedInstance c k [.vstr data.rawMessage] freshStack
  match data.stack with
  | some s => if s = "" then inst else setStack inst (some s)
  | none => inst

/-- `instance.clone()` = `this.ctor.from(this)` (a live instance is first
snapshotted through `toObject`). -/
def clone (c : ExcpConf) (k : KindDescriptor) (e : ErrObj)
    (freshStack : Option String) : ErrObj :=
  fromSnapshot c k (toObject e) freshStack

/-- `ScopedException.cast(value)` for the kind `k`, following the source
branch order: already of this kind, string, `instanceof Error`, plain
object with a `message` property, anything else. -/
def cast (c : ExcpConf) (k : KindDescriptor) (v : JSVal)
    (freshStack : Option String) : ErrObj :=
  match v with
  | .verr e =>
    if e.cls = .scoped k.classId then e
    else setCause (mkScopedInstance c k [.vstr e.message] freshStack) (some e)
  | .vstr s => mkScopedInstance c k [.vstr s] freshStack
  | .vobj msg _ _ =>
    match msg with
    | some mv => mkScopedInstance c k [.vstr (jsToString mv)] freshStack
    | none => mkScopedInstance c k [v] freshStack
  | _ => mkScopedInstance c k [v] freshStack

/-! ## Registry infrastructure lemmas -/

/-- Registry lookup of the descriptor stored under `(scope key, name)`. -/
def lookupPair (st : GlobalState) (key name : String) : Option KindDescriptor :=
  (lookupA st.defs key).bind (fun m => lookupA m name)

/-- The scope key a factory request resolves to (lines 139-145). -/
def effectiveScopeKey (dirname : String) (opts : DefOptions)
    (stack : Option String) : String :=
  labeledScopeKey opts.labelName (effectiveScopeName dirname stack)


theorem lookupA_nil {α : Type} (k : String) :
    lookupA ([] : List (String × α)) k = none := rfl

theorem lookupA_cons {α : Type} (k2 : String) (v2 : α) (rest : List (String × α))
    (j : String) :
    lookupA ((k2, v2) :: rest) j = if k2 = j then some v2 else lookupA rest j := rfl

theorem lookupA_setA {α : Type} (m : List (String × α)) (k j : String) (v : α) :
    lookupA (setA m k v) j = if k = j then some v else lookupA m j := by
  induction m with
  | nil =>
    by_cases h : k = j <;> simp [setA, lookupA_cons, lookupA_nil, h]
  | cons p rest ih =>
    obtain ⟨k2, v2⟩ := p
    by_cases hk : k2 = k
    · subst hk
      simp only [setA, if_pos rfl]
      by_cases h : k2 = j <;> simp [lookupA_cons, h]
    · simp only [setA, if_neg hk]
      by_cases h : k2 = j
      · subst h
        have hkj : ¬ k = k2 := fun hh => hk hh.symm
        simp [lookupA_cons, hkj]
      · simp [lookupA_cons, h, ih]

theorem lookupA_append {α : Type} (m m2 : List (String × α)) (k : String) :
    lookupA (m ++ m2) k =
      match lookupA m k with
      | some v => some v
      | none => lookupA m2 k := by
  induction m with
  | nil => simp [lookupA_nil]
  | cons p rest ih =>
    obtain ⟨k2, v2⟩ := p
    by_cases h : k2 = k
    · simp [List.cons_append, lookupA_cons, h]
    · simp [List.cons_append, lookupA_cons, h, ih]

/-- Branch lemma: requesting a name in a scope the registry has never
seen creates the scope map and registers the descriptor at index 0. -/
theorem defineCore_new_scope (key : String) (opts : DefOptions) (st : GlobalState)
    (hm : lookupA st.defs key = none) :
    defineCore key opts st =
      (⟨st.nextClassId, opts.errorName, opts.labelName, key, 0⟩,
       { st with
          defs := setA (setA st.defs key [])
            key [(opts.errorName,
              ⟨st.nextClassId, opts.errorName, opts.labelName, key, 0⟩)],
          nextClassId := st.nextClassId + 1 }) := by
  unfold defineCore
  simp [hm, lookupA_setA, lookupA_nil]

/-- Branch lemma: a collision returns the stored descriptor and only
counts a warning. -/
theorem defineCore_hit (key : String) (opts : DefOptions) (st : GlobalState)
    (m : List (String × KindDescriptor)) (d : KindDescriptor)
    (hm : lookupA st.defs key = some m) (hd : lookupA m opts.errorName = some d) :
    defineCore key opts st = (d, { st with warnings := st.warnings + 1 }) := by
  unfold defineCore
  simp [hm, hd]

/-- Branch lemma: a fresh name in an existing scope is appended with the
next ordinal index, the current scope size. -/
theorem defineCore_miss (key : String) (opts : DefOptions) (st : GlobalState)
    (m : List (String × KindDescriptor))
    (hm : lookupA st.defs key = some m) (hd : lookupA m opts.errorName = none) :
    defineCore key opts st =
      (⟨st.nextClassId, opts.errorName, opts.labelName, key, m.length⟩,
       { st with
          defs := setA st.defs key
            (m ++ [(opts.errorName,
              ⟨st.nextClassId, opts.errorName, opts.labelName, key, m.length⟩)]),
          nextClassId := st.nextClassId + 1 }) := by
  unfold defineCore
  simp [hm, hd]

/-- The full effect of one registration on the registry: the requested
`(scope key, name)` pair now maps to the returned descriptor; every
other pair is untouched. -/
theorem defineCore_lookup (key : String) (opts : DefOptions) (st : GlobalState)
    (j n : String) :
    lookupPair (defineCore key opts st).2 j n =
      if j = key ∧ n = opts.errorName then some (defineCore key opts st).1
      else lookupPair st j n := by
  cases hm : lookupA st.defs key with
  | none =>
    rw [defineCore_new_scope key opts st hm]
    unfold lookupPair
    simp only [lookupA_setA]
    by_cases hj : key = j
    · cases hj
      simp only [if_pos rfl, true_and, Option.getD_some, Option.bind_some]
      by_cases hn : n = opts.errorName
      · simp [hn, lookupA_cons]
      · have hnn : ¬ opts.errorName = n := fun hh => hn hh.symm
        simp [hn, lookupA_cons, hnn, lookupA_nil, hm]
    · have hj2 : ¬ j = key := fun hh => hj hh.symm
      simp [hj, hj2]
  | some m =>
    cases hd : lookupA m opts.errorName with
    | some d =>
      rw [defineCore_hit key opts st m d hm hd]
      unfold lookupPair
      simp only
      by_cases hc : j = key ∧ n = opts.errorName
      · obtain ⟨hj, hn⟩ := hc
        cases hj; cases hn
        simp [hm, hd]
      · simp [hc]
    | none =>
      rw [defineCore_miss key opts st m hm hd]
      unfold lookupPair
      simp only [lookupA_setA]
      by_cases hj : key = j
      · cases hj
        rw [if_pos rfl]
        by_cases hn : n = opts.errorName
        · cases hn
          simp [lookupA_append, hd, lookupA_cons, hm]
        · have hnn : ¬ opts.errorName = n := fun hh => hn hh.symm
          cases hl : lookupA m n with
          | some v => simp [lookupA_append, hl, hn, hm]
          | none => simp [lookupA_append, hl, hn, lookupA_cons, hnn, lookupA_nil, hm]
      · have hj2 : ¬ j = key := fun hh => hj hh.symm
        simp [hj, hj2]

/-- `defineCore_lookup` transported to the full factory entry point. -/
theorem define_lookup (dirname : String) (opts : DefOptions)
    (stack : Option String) (st : GlobalState) (j n : String) :
    lookupPair (defineScopedExcption dirname opts stack st).2 j n =
      if j = effectiveScopeKey dirname opts stack ∧ n = opts.errorName then
        some (defineScopedExcption dirname opts stack st).1
      else lookupPair st j n := by
  unfold defineScopedExcption
  exact defineCore_lookup _ opts st j n

/-- A collision at the entry point: the stored descriptor itself is
returned and the only state change is one more diagnostic warning. -/
theorem define_hit (dirname : String) (opts : DefOptions) (stack : Option String)
    (st : GlobalState) (d : KindDescriptor)
    (h : lookupPair st (effectiveScopeKey dirname opts stack) opts.errorName = some d) :
    defineScopedExcption dirname opts stack st =
      (d, { st with warnings := st.warnings + 1 }) := by
  unfold defineScopedExcption
  unfold lookupPair at h
  cases hm : lookupA st.defs (effectiveScopeKey dirname opts stack) with
  | none => rw [hm] at h; simp at h
  | some m =>
    rw [hm] at h
    simp only [Option.some_bind] at h
    exact defineCore_hit _ opts st m d hm h

/-- Registered bindings survive any later sequence of factory requests. -/
theorem runRequests_lookup_mono (dirname : String) (L : List Request)
    (st : GlobalState) (j n : String) (d : KindDescriptor)
    (h : lookupPair st j n = some d) :
    lookupPair (runRequests dirname L st) j n = some d := by
  induction L generalizing st with
  | nil => exact h
  | cons r rest ih =>
    simp only [runRequests]
    apply ih
    rw [define_lookup]
    by_cases hc : j = effectiveScopeKey dirname r.opts r.stack ∧ n = r.opts.errorName
    · obtain ⟨hj, hn⟩ := hc
      cases hj; cases hn
      have := define_hit dirname r.opts r.stack st d h
      simp [this]
    · simp [hc, h]

/-! ## Scope-index and class-identity invariants -/

/-- The ordinal indices of one scope's map, in insertion order. -/
def scopeIndices (m : List (String × KindDescriptor)) : List Nat :=
  m.map (fun p => p.2.scopedIndex)

/-- Invariant: every scope's indices are exactly `0, 1, ..., size-1` in
first-request order. -/
def IndicesOk (st : GlobalState) : Prop :=
  ∀ key m, lookupA st.defs key = some m → scopeIndices m = List.range m.length

/-- Invariant: descriptors registered under different pairs are
different class objects. -/
def DistinctIds (st : GlobalState) : Prop :=
  ∀ k1 n1 k2 n2 d1 d2, lookupPair st k1 n1 = some d1 →
    lookupPair st k2 n2 = some d2 → (k1 ≠ k2 ∨ n1 ≠ n2) →
    d1.classId ≠ d2.classId

/-- Invariant: every registered class id is below the creation counter. -/
def BoundedIds (st : GlobalState) : Prop :=
  ∀ k n d, lookupPair st k n = some d → d.classId < st.nextClassId

theorem lookupPair_initState (k n : String) : lookupPair initState k n = none := rfl

theorem defineCore_preserves_indices (key : String) (opts : DefOptions)
    (st : GlobalState) (h : IndicesOk st) : IndicesOk (defineCore key opts st).2 := by
  cases hm : lookupA st.defs key with
  | none =>
    rw [defineCore_new_scope key opts st hm]
    intro j mj hj
    simp only [lookupA_setA] at hj
    by_cases hkj : key = j
    · rw [if_pos hkj] at hj
      cases hj
      simp [scopeIndices, List.range]
      rfl
    · rw [if_neg hkj, if_neg hkj] at hj
      exact h j mj hj
  | some m =>
    cases hd : lookupA m opts.errorName with
    | some d =>
      rw [defineCore_hit key opts st m d hm hd]
      intro j mj hj
      exact h j mj hj
    | none =>
      rw [defineCore_miss key opts st m hm hd]
      intro j mj hj
      simp only [lookupA_setA] at hj
      by_cases hkj : key = j
      · rw [if_pos hkj] at hj
        cases hj
        have hidx := h key m hm
        simp only [scopeIndices, List.map_append, List.length_append] at *
        rw [hidx]
        simp [List.range_succ]
      · rw [if_neg hkj] at hj
        exact h j mj hj

theorem runRequests_indices (dirname : String) (L : List Request)
    (st : GlobalState) (h : IndicesOk st) :
    IndicesOk (runRequests dirname L st) := by
  induction L generalizing st with
  | nil => exact h
  | cons r rest ih =>
    simp only [runRequests]
    exact ih _ (defineCore_preserves_indices _ r.opts st h)

/-- Each registration either returns a stored descriptor (no counter
move) or mints a brand-new class object with the current counter. -/
theorem defineCore_result (key : String) (opts : DefOptions) (st : GlobalState) :
    (lookupPair st key opts.errorName = some (defineCore key opts st).1 ∧
      (defineCore key opts st).2.nextClassId = st.nextClassId)
    ∨ ((defineCore key opts st).1.classId = st.nextClassId ∧
      (defineCore key opts st).2.nextClassId = st.nextClassId + 1 ∧
      lookupPair st key opts.errorName = none) := by
  cases hm : lookupA st.defs key with
  | none =>
    right
    rw [defineCore_new_scope key opts st hm]
    unfold lookupPair
    simp [hm]
  | some m =>
    cases hd : lookupA m opts.errorName with
    | some d =>
      left
      rw [defineCore_hit key opts st m d hm hd]
      unfold lookupPair
      simp [hm, hd]
    | none =>
      right
      rw [defineCore_miss key opts st m hm hd]
      unfold lookupPair
      simp [hm, hd]

theorem defineCore_preserves_ids (key : String) (opts : DefOptions)
    (st : GlobalState) (hD : DistinctIds st) (hB : BoundedIds st) :
    DistinctIds (defineCore key opts st).2 ∧ BoundedIds (defineCore key opts st).2 := by
  have hchar : ∀ j n, lookupPair (defineCore key opts st).2 j n =
      if j = key ∧ n = opts.errorName then some (defineCore key opts st).1
      else lookupPair st j n := fun j n => defineCore_lookup key opts st j n
  constructor
  · intro k1 n1 k2 n2 d1 d2 h1 h2 hne
    rw [hchar] at h1 h2
    by_cases c1 : k1 = key ∧ n1 = opts.errorName
    · rw [if_pos c1] at h1
      by_cases c2 : k2 = key ∧ n2 = opts.errorName
      · exfalso
        obtain ⟨hk1, hn1⟩ := c1
        obtain ⟨hk2, hn2⟩ := c2
        cases hne with
        | inl hk => exact hk (hk1.trans hk2.symm)
        | inr hn => exact hn (hn1.trans hn2.symm)
      · rw [if_neg c2] at h2
        cases h1
        rcases defineCore_result key opts st with ⟨hres, _⟩ | ⟨hid, _, _⟩
        · obtain ⟨hk1, hn1⟩ := c1
          refine hD key opts.errorName k2 n2 _ d2 hres h2 ?_
          cases hne with
          | inl hk => exact Or.inl (fun hh => hk (hk1.trans (hh.trans rfl)) )
          | inr hn => exact Or.inr (fun hh => hn (hn1.trans hh))
        · rw [hid]
          have := hB k2 n2 d2 h2
          omega
    · rw [if_neg c1] at h1
      by_cases c2 : k2 = key ∧ n2 = opts.errorName
      · rw [if_pos c2] at h2
        cases h2
        rcases defineCore_result key opts st with ⟨hres, _⟩ | ⟨hid, _, _⟩
        · obtain ⟨hk2, hn2⟩ := c2
          refine hD k1 n1 key opts.errorName d1 _ h1 hres ?_
          cases hne with
          | inl hk => exact Or.inl (fun hh => hk (hh.trans hk2.symm))
          | inr hn => exact Or.inr (fun hh => hn (hh.trans hn2.symm))
        · rw [hid]
          have := hB k1 n1 d1 h1
          omega
      · rw [if_neg c2] at h2
        exact hD k1 n1 k2 n2 d1 d2 h1 h2 hne
  · intro k n d hkn
    rw [hchar] at hkn
    have hmono : st.nextClassId ≤ (defineCore key opts st).2.nextClassId := by
      rcases defineCore_result key opts st with ⟨_, he⟩ | ⟨_, he, _⟩ <;> omega
    by_cases c : k = key ∧ n = opts.errorName
    · rw [if_pos c] at hkn
      cases hkn
      rcases defineCore_result key opts st with ⟨hres, he⟩ | ⟨hid, he, _⟩
      · have := hB key opts.errorName _ hres
        omega
      · omega
    · rw [if_neg c] at hkn
      have := hB k n d hkn
      omega

theorem runRequests_ids (dirname : String) (L : List Request) (st : GlobalState)
    (hD : DistinctIds st) (hB : BoundedIds st) :
    DistinctIds (runRequests dirname L st) ∧ BoundedIds (runRequests dirname L st) := by
  induction L generalizing st with
  | nil => exact ⟨hD, hB⟩
  | cons r rest ih =>
    simp only [runRequests]
    have := defineCore_preserves_ids
      (labeledScopeKey r.opts.labelName (effectiveScopeName dirname r.stack)) r.opts st hD hB
    exact ih _ this.1 this.2

theorem initState_distinct : DistinctIds initState := by
  intro k1 n1 k2 n2 d1 d2 h1
  rw [lookupPair_initState] at h1
  cases h1

theorem initState_bounded : BoundedIds initState := by
  intro k n d h
  rw [lookupPair_initState] at h
  cases h

/-! ## Claim C1: identity-stable collision recovery -/

/-- C1: requesting the same `(scope, name)` pair a second time through
the factory — however many requests for other names (or any other
pairs) happened in between — returns the very descriptor object the
first request produced: the result is the stored class (identity
captured by `classId`-carrying equality), the registry and the class
counter are unchanged (no new ordinal is assigned), and the only effect
is one more diagnostic collision warning; the call returns normally, so
the collision is never surfaced as a failure. -/
theorem claim_C1 (dirname : String) (opts : DefOptions) (stack : Option String)
    (s0 : GlobalState) (L : List Request) :
    defineScopedExcption dirname opts stack
        (runRequests dirname L (defineScopedExcption dirname opts stack s0).2) =
      ((defineScopedExcption dirname opts stack s0).1,
        { runRequests dirname L (defineScopedExcption dirname opts stack s0).2 with
            warnings :=
              (runRequests dirname L
                (defineScopedExcption dirname opts stack s0).2).warnings + 1 }) := by
  have h1 : lookupPair (defineScopedExcption dirname opts stack s0).2
      (effectiveScopeKey dirname opts stack) opts.errorName =
      some (defineScopedExcption dirname opts stack s0).1 := by
    rw [define_lookup]
    simp
  have h2 := runRequests_lookup_mono dirname L _ _ _ _ h1
  exact define_hit dirname opts stack _ _ h2

/-! ## Claim C2: ordinal indices -/

/-- C2: in every reachable registry state, each scope's `scopeIndex`
values are exactly `0, 1, ..., size-1` in first-request order — hence
distinct, strictly increasing, and never reused — and a request for a
fresh name is assigned the ordinal equal to the number of kinds already
registered in its scope at that moment. -/
theorem claim_C2 (dirname : String) (L : List Request) :
    (∀ key m, lookupA (runRequests dirname L initState).defs key = some m →
      scopeIndices m = List.range m.length ∧ (scopeIndices m).Nodup ∧
      List.Pairwise (· < ·) (scopeIndices m))
    ∧ (∀ (opts : DefOptions) (stack : Option String) (st : GlobalState),
        lookupPair st (effectiveScopeKey dirname opts stack) opts.errorName = none →
        (defineScopedExcption dirname opts stack st).1.scopedIndex =
          ((lookupA st.defs (effectiveScopeKey dirname opts stack)).getD []).length) := by
  constructor
  · have hinit : IndicesOk initState := by
      intro key m hm
      cases hm
    have hok := runRequests_indices dirname L initState hinit
    intro key m hm
    have hr := hok key m hm
    refine ⟨hr, ?_, ?_⟩
    · rw [hr]; exact List.nodup_range m.length
    · rw [hr]; exact List.pairwise_lt_range m.length
  · intro opts stack st h
    unfold defineScopedExcption at *
    unfold effectiveScopeKey at h
    cases hm : lookupA st.defs
        (labeledScopeKey opts.labelName (effectiveScopeName dirname stack)) with
    | none =>
      rw [defineCore_new_scope _ opts st hm]
      simp [hm, effectiveScopeKey]
    | some m =>
      unfold lookupPair at h
      rw [hm] at h
      simp only [Option.some_bind] at h
      rw [defineCore_miss _ opts st m hm h]
      simp [hm, effectiveScopeKey]

/-- Closed instantiation of `claim_C2`: two kinds requested in the same
scope receive indices `[0, 1]`, and a third fresh name would receive
index 2. -/
theorem claim_C2_witness :
    scopeIndices [("A", ⟨0, "A", some "L", "L:global", 0⟩),
        ("B", ⟨1, "B", some "L", "L:global", 1⟩)] = List.range 2 ∧
    (defineScopedExcption "" ⟨"C", some "L"⟩ none
      (runRequests "" [⟨⟨"A", some "L"⟩, none⟩, ⟨⟨"B", some "L"⟩, none⟩]
        initState)).1.scopedIndex = 2 := by
  have h := claim_C2 "" [⟨⟨"A", some "L"⟩, none⟩, ⟨⟨"B", some "L"⟩, none⟩]
  refine ⟨?_, ?_⟩
  · exact (h.1 "L:global"
      [("A", ⟨0, "A", some "L", "L:global", 0⟩),
       ("B", ⟨1, "B", some "L", "L:global", 1⟩)] (by decide)).1
  · have h2 := h.2 ⟨"C", some "L"⟩ none
      (runRequests "" [⟨⟨"A", some "L"⟩, none⟩, ⟨⟨"B", some "L"⟩, none⟩] initState)
      (by decide)
    rw [h2]
    decide

/-! ## Claim C10: classification soundness and kind disjointness -/

/-- C10: for any two descriptors registered under distinct
`(scope, name)` pairs in a reachable registry, an instance constructed
from the first kind satisfies that kind's `is`, fails the other kind's
`is`, satisfies the base type's `is`, and `is(null)` / `is(undefined)`
are false for every kind. -/
theorem claim_C10 (dirname : String) (L : List Request) (k1 n1 k2 n2 : String)
    (d1 d2 : KindDescriptor) (c : ExcpConf) (args : List JSVal)
    (stack : Option String)
    (h1 : lookupPair (runRequests dirname L initState) k1 n1 = some d1)
    (h2 : lookupPair (runRequests dirname L initState) k2 n2 = some d2)
    (hne : k1 ≠ k2 ∨ n1 ≠ n2) :
    scopedIs d1 (.verr (mkScopedInstance c d1 args stack)) = true ∧
    scopedIs d2 (.verr (mkScopedInstance c d1 args stack)) = false ∧
    exceptionIs (.verr (mkScopedInstance c d1 args stack)) = true ∧
    (∀ d : KindDescriptor, scopedIs d .vnull = false ∧ scopedIs d .vundef = false) := by
  have hinv := runRequests_ids dirname L initState initState_distinct initState_bounded
  have hid : d1.classId ≠ d2.classId := hinv.1 k1 n1 k2 n2 d1 d2 h1 h2 hne
  refine ⟨?_, ?_, ?_, ?_⟩
  · simp [scopedIs, mkScopedInstance, ErrObj.cls]
  · simp [scopedIs, mkScopedInstance, ErrObj.cls]
    intro hh
    exact absurd hh hid
  · simp [exceptionIs, mkScopedInstance, ErrObj.cls]
  · intro d
    exact ⟨rfl, rfl⟩

/-- Closed instantiation of `claim_C10` for two kinds of one scope. -/
theorem claim_C10_witness :
    scopedIs ⟨0, "A", some "L", "L:global", 0⟩
      (.verr (mkScopedInstance defaultConf ⟨0, "A", some "L", "L:global", 0⟩
        [] none)) = true ∧
    scopedIs ⟨1, "B", some "L", "L:global", 1⟩
      (.verr (mkScopedInstance defaultConf ⟨0, "A", some "L", "L:global", 0⟩
        [] none)) = false ∧
    exceptionIs (.verr (mkScopedInstance defaultConf
      ⟨0, "A", some "L", "L:global", 0⟩ [] none)) = true ∧
    (∀ d : KindDescriptor, scopedIs d .vnull = false ∧ scopedIs d .vundef = false) :=
  claim_C10 "" [⟨⟨"A", some "L"⟩, none⟩, ⟨⟨"B", some "L"⟩, none⟩]
    "L:global" "A" "L:global" "B"
    ⟨0, "A", some "L", "L:global", 0⟩ ⟨1, "B", some "L", "L:global", 1⟩
    defaultConf [] none (by decide) (by decide) (Or.inr (by decide))

/-! ## Message rendering characterisation -/

theorem data_append (a b : String) : (a ++ b).data = a.data ++ b.data := by
  cases a; cases b; rfl

theorem mk_data (s : String) : (⟨s.data⟩ : String) = s := by
  cases s; rfl

theorem replaceFirst_here (pat rep tail : List Char) :
    replaceFirstList pat rep (pat ++ tail) = rep ++ tail := by
  have hpre : pat.isPrefixOf (pat ++ tail) = true := by
    induction pat with
    | nil => simp [List.isPrefixOf]
    | cons p ps ih => simp [List.isPrefixOf, ih]
  cases hp : pat with
  | nil =>
    cases tail with
    | nil => simp [replaceFirstList, List.isPrefixOf]
    | cons c cs => simp [replaceFirstList, List.isPrefixOf]
  | cons p ps =>
    rw [hp] at hpre
    have heq : (p :: ps) ++ tail = p :: (ps ++ tail) := rfl
    rw [heq] at hpre
    rw [heq, replaceFirstList, if_pos hpre]
    have hd : List.drop (p :: ps).length (p :: (ps ++ tail)) = tail := by
      simp only [List.length_cons, List.drop_succ_cons]
      exact List.drop_left ps tail
    rw [hd]

theorem replaceFirst_skip (c : Char) (cs pat rep : List Char)
    (h : pat.isPrefixOf (c :: cs) = false) :
    replaceFirstList pat rep (c :: cs) = c :: replaceFirstList pat rep cs := by
  simp [replaceFirstList, h]

theorem rf_label (v : String) :
    jsReplaceFirst "[$label] " "$label" v = ⟨'[' :: (v.data ++ [']', ' '])⟩ := by
  show (⟨replaceFirstList "$label".data v.data "[$label] ".data⟩ : String) = _
  have h1 : "[$label] ".data = '[' :: ("$label".data ++ [']', ' ']) := rfl
  rw [h1, replaceFirst_skip _ _ _ _ (by decide), replaceFirst_here]

theorem rf_err (v : String) : jsReplaceFirst "$error" "$error" v = v := by
  show (⟨replaceFirstList "$error".data v.data "$error".data⟩ : String) = _
  have h1 : "$error".data = "$error".data ++ ([] : List Char) := by simp
  calc (⟨replaceFirstList "$error".data v.data "$error".data⟩ : String)
      = ⟨replaceFirstList "$error".data v.data ("$error".data ++ [])⟩ := by rw [← h1]
    _ = ⟨v.data ++ []⟩ := by rw [replaceFirst_here]
    _ = ⟨v.data⟩ := by simp
    _ = v := mk_data v

theorem rf_msg (v : String) :
    jsReplaceFirst ": $message" "$message" v = ⟨':' :: ' ' :: v.data⟩ := by
  show (⟨replaceFirstList "$message".data v.data ": $message".data⟩ : String) = _
  have h1 : ": $message".data = ':' :: ' ' :: ("$message".data ++ []) := by decide
  rw [h1, replaceFirst_skip _ _ _ _ (by decide), replaceFirst_skip _ _ _ _ (by decide),
    replaceFirst_here]
  simp

theorem rf_file (v : String) :
    jsReplaceFirst " ($file)" "$file" v = ⟨' ' :: '(' :: (v.data ++ [')'])⟩ := by
  show (⟨replaceFirstList "$file".data v.data " ($file)".data⟩ : String) = _
  have h1 : " ($file)".data = ' ' :: '(' :: ("$file".data ++ [')']) := rfl
  rw [h1, replaceFirst_skip _ _ _ _ (by decide), replaceFirst_skip _ _ _ _ (by decide),
    replaceFirst_here]

/-- The rendered `[$label] ` block (dropped when absent or empty). -/
def labelBlockOf : Option String → Option String
  | none => none
  | some l => if l = "" then none else some ⟨'[' :: (l.data ++ [']', ' '])⟩

/-- The rendered `$error` block (dropped when the name is empty). -/
def errBlockOf (N : String) : Option String :=
  if N = "" then none else some N

/-- The rendered `: $message` block (dropped when empty). -/
def msgBlockOf (bm : String) : Option String :=
  if bm = "" then none else some ⟨':' :: ' ' :: bm.data⟩

/-- The rendered ` ($file)` block (dropped when absent or empty). -/
def fileBlockOf : Option String → Option String
  | none => none
  | some f => if f = "" then none else some ⟨' ' :: '(' :: (f.data ++ [')'])⟩

/-- Character-level contribution of the label block. -/
def labelPartOf (lab : Option String) : List Char :=
  ((labelBlockOf lab).getD "").data

/-- Character-level contribution of the message block. -/
def msgPartOf (bm : String) : List Char :=
  ((msgBlockOf bm).getD "").data

/-- Character-level contribution of the file block. -/
def filePartOf (fn : Option String) : List Char :=
  ((fileBlockOf fn).getD "").data

theorem joinAll_filterMap_data (opts : List (Option String)) :
    (joinAll (opts.filterMap id)).data =
      (opts.map (fun o => (o.getD "").data)).flatten := by
  induction opts with
  | nil => rfl
  | cons o rest ih =>
    cases o with
    | none => simp only [List.filterMap_cons, List.map_cons, List.flatten_cons]; simpa using ih
    | some s => simp [List.filterMap_cons, joinAll, data_append, ih]

/-- Full characterisation of `interpolateTemplate` under the default
template for the variables record the scoped constructor builds: the
message is the concatenation of the (possibly empty) label, error-name,
message and file blocks, in template order, with no added separators. -/
theorem interp_default (lab : Option String) (bm N : String) (fn : Option String) :
    (interpolateTemplate defaultConf
      [("$label", lab), ("$message", some bm), ("$error", some N), ("$file", fn)]).data =
    labelPartOf lab ++ (N.data ++ (msgPartOf bm ++ filePartOf fn)) := by
  have hfl : renderBlock
      [("$label", lab), ("$message", some bm), ("$error", some N), ("$file", fn)]
      "[$label] " = labelBlockOf lab := by
    unfold renderBlock
    have e1 : (fun (kv : String × Option String) => jsIncludes "[$label] " kv.1)
      ("$label", lab) = true := rfl
    simp only [List.find?_cons, e1]
    cases lab with
    | none => rfl
    | some l =>
      by_cases hl : l = ""
      · simp [hl, labelBlockOf]
      · simp [hl, labelBlockOf, rf_label]
  have hfe : renderBlock
      [("$label", lab), ("$message", some bm), ("$error", some N), ("$file", fn)]
      "$error" = errBlockOf N := by
    unfold renderBlock
    have e1 : (fun (kv : String × Option String) => jsIncludes "$error" kv.1)
      ("$label", lab) = false := rfl
    have e2 : (fun (kv : String × Option String) => jsIncludes "$error" kv.1)
      ("$message", some bm) = false := rfl
    have e3 : (fun (kv : String × Option String) => jsIncludes "$error" kv.1)
      ("$error", some N) = true := rfl
    simp only [List.find?_cons, e1, e2, e3]
    by_cases hN : N = ""
    · simp [hN, errBlockOf]
    · simp [hN, errBlockOf, rf_err]
  have hfm : renderBlock
      [("$label", lab), ("$message", some bm), ("$error", some N), ("$file", fn)]
      ": $message" = msgBlockOf bm := by
    unfold renderBlock
    have e1 : (fun (kv : String × Option String) => jsIncludes ": $message" kv.1)
      ("$label", lab) = false := rfl
    have e2 : (fun (kv : String × Option String) => jsIncludes ": $message" kv.1)
      ("$message", some bm) = true := rfl
    simp only [List.find?_cons, e1, e2]
    by_cases hbm : bm = ""
    · simp [hbm, msgBlockOf]
    · simp [hbm, msgBlockOf, rf_msg]
  have hff : renderBlock
      [("$label", lab), ("$message", some bm), ("$error", some N), ("$file", fn)]
      " ($file)" = fileBlockOf fn := by
    unfold renderBlock
    have e1 : (fun (kv : String × Option String) => jsIncludes " ($file)" kv.1)
      ("$label", lab) = false := rfl
    have e2 : (fun (kv : String × Option String) => jsIncludes " ($file)" kv.1)
      ("$message", some bm) = false := rfl
    have e3 : (fun (kv : String × Option String) => jsIncludes " ($file)" kv.1)
      ("$error", some N) = false := rfl
    have e4 : (fun (kv : String × Option String) => jsIncludes " ($file)" kv.1)
      ("$file", fn) = true := rfl
    simp only [List.find?_cons, e1, e2, e3, e4]
    cases fn with
    | none => rfl
    | some f =>
      by_cases hf : f = ""
      · simp [hf, fileBlockOf]
      · simp [hf, fileBlockOf, rf_file]
  unfold interpolateTemplate
  have htempl : defaultConf.template = ["[$label] ", "$error", ": $message", " ($file)"] := rfl
  rw [htempl]
  simp only [List.map_cons, List.map_nil, hfl, hfe, hfm, hff]
  rw [joinAll_filterMap_data]
  simp only [List.map_cons, List.map_nil, List.flatten]
  have herr : ((errBlockOf N).getD "").data = N.data := by
    by_cases hN : N = ""
    · simp [hN, errBlockOf]
    · simp [hN, errBlockOf]
  rw [herr]
  show labelPartOf lab ++ (N.data ++ (msgPartOf bm ++ (filePartOf fn ++ []))) = _
  simp

/-! ## Instance accessor lemmas -/

theorem mkScoped_message (c : ExcpConf) (k : KindDescriptor) (args : List JSVal)
    (stack : Option String) :
    (mkScopedInstance c k args stack).message = interpolateTemplate c
      [("$label", k.labelName), ("$message", some (safeEncode c args)),
       ("$error", some k.name), ("$file", fileNameOf stack)] := by
  simp [mkScopedInstance, ErrObj.message]

theorem mkScoped_name (c : ExcpConf) (k : KindDescriptor) (args : List JSVal)
    (stack : Option String) :
    (mkScopedInstance c k args stack).name = k.name := by
  simp [mkScopedInstance, ErrObj.name]

theorem mkScoped_cause (c : ExcpConf) (k : KindDescriptor) (args : List JSVal)
    (stack : Option String) :
    (mkScopedInstance c k args stack).cause = getPossibleCause args := by
  simp [mkScopedInstance, ErrObj.cause]

theorem mkScoped_stack (c : ExcpConf) (k : KindDescriptor) (args : List JSVal)
    (stack : Option String) :
    (mkScopedInstance c k args stack).stack = stack := by
  simp [mkScopedInstance, ErrObj.stack]

theorem mkScoped_label (c : ExcpConf) (k : KindDescriptor) (args : List JSVal)
    (stack : Option String) :
    (mkScopedInstance c k args stack).label = k.labelName := by
  simp [mkScopedInstance, ErrObj.label]

theorem mkScoped_code (c : ExcpConf) (k : KindDescriptor) (args : List JSVal)
    (stack : Option String) :
    (mkScopedInstance c k args stack).code =
      match jsToNumber k.name with
      | .nan => none
      | n => some n := by
  simp [mkScopedInstance, ErrObj.code]

theorem mkScoped_originalMessage (c : ExcpConf) (k : KindDescriptor)
    (args : List JSVal) (stack : Option String) :
    (mkScopedInstance c k args stack).originalMessage = safeEncode c args := by
  simp [mkScopedInstance, ErrObj.originalMessage]

theorem setStack_message (e : ErrObj) (s : Option String) :
    (setStack e s).message = e.message := by
  cases e; rfl

theorem setStack_name (e : ErrObj) (s : Option String) :
    (setStack e s).name = e.name := by
  cases e; rfl

theorem setStack_cause (e : ErrObj) (s : Option String) :
    (setStack e s).cause = e.cause := by
  cases e; rfl

/-- `safeEncode` of a single string argument is that string. -/
theorem safeEncode_single_str (c : ExcpConf) (hc : c.encoding = .json) (s : String) :
    safeEncode c [.vstr s] = s := by
  unfold safeEncode
  rw [hc]
  simp only [reduceCtorEq, if_false]
  by_cases hs : s = ""
  · subst hs
    rfl
  · have hf : jsFalsy (.vstr s) = false := by
      simp [jsFalsy, hs]
    simp [encodeAll, encodeItem, hf, jsJoinElem, jsToString, joinSep]

theorem getPossibleCause_single_str (s : String) :
    getPossibleCause [.vstr s] = none := rfl

theorem getPossibleCause_str_err (s : String) (e : ErrObj) :
    getPossibleCause [.vstr s, .verr e] = some e := rfl

/-! ## Claim C7: template rendering -/

theorem empty_append_str (s : String) : "" ++ s = s := by
  cases s; rfl

theorem joinAll_filterMap (l : List (Option String)) :
    joinAll (l.filterMap id) = joinAll (l.map (fun o => o.getD "")) := by
  induction l with
  | nil => rfl
  | cons o rest ih =>
    cases o with
    | none => simp [List.filterMap_cons, joinAll, ih, empty_append_str]
    | some s => simp [List.filterMap_cons, joinAll, ih]

/-- The configuration of the C7 example (the example's template with
default settings elsewhere). -/
def c7conf : ExcpConf := { defaultConf with template := ["[$label] ", "$error", ": $message"] }

/-- C7: `interpolateTemplate` renders each template block independently
and concatenates the per-block results in template order with no added
separators; a block whose referenced placeholder (the first variable
whose key occurs in the block) is unmatched, absent or empty contributes
nothing, and every other block contributes the block with the first
occurrence of the key substituted; on the example template
`["[$label] ", "$error", ": $message"]` with the label absent, error
`"X"` and message `"boom"`, the result is `"X: boom"`. -/
theorem claim_C7 :
    (∀ (c : ExcpConf) (vars : List (String × Option String)),
      interpolateTemplate c vars =
        joinAll (c.template.map (fun b => (renderBlock vars b).getD "")))
    ∧ (∀ (vars : List (String × Option String)) (b : String),
        vars.find? (fun kv => jsIncludes b kv.1) = none → renderBlock vars b = none)
    ∧ (∀ (vars : List (String × Option String)) (b k : String),
        vars.find? (fun kv => jsIncludes b kv.1) = some (k, none) →
        renderBlock vars b = none)
    ∧ (∀ (vars : List (String × Option String)) (b k : String),
        vars.find? (fun kv => jsIncludes b kv.1) = some (k, some "") →
        renderBlock vars b = none)
    ∧ (∀ (vars : List (String × Option String)) (b k v : String),
        vars.find? (fun kv => jsIncludes b kv.1) = some (k, some v) → v ≠ "" →
        renderBlock vars b = some (jsReplaceFirst b k v))
    ∧ interpolateTemplate c7conf
        [("$label", none), ("$error", some "X"), ("$message", some "boom")] = "X: boom" := by
  refine ⟨?_, ?_, ?_, ?_, ?_, ?_⟩
  · intro c vars
    unfold interpolateTemplate
    rw [joinAll_filterMap, List.map_map]
    rfl
  · intro vars b h
    unfold renderBlock
    rw [h]
  · intro vars b k h
    unfold renderBlock
    rw [h]
  · intro vars b k h
    unfold renderBlock
    rw [h]
    simp
  · intro vars b k v h hv
    unfold renderBlock
    rw [h]
    simp [hv]
  · decide

/-- Closed instantiation of `claim_C7`: the homomorphic rendering
equation at a concrete input, and a dropped / substituted block each at
a concrete input. -/
theorem claim_C7_witness :
    interpolateTemplate defaultConf
        [("$e", some "X"), ("$m", some "")] =
      joinAll (defaultConf.template.map
        (fun b => (renderBlock [("$e", some "X"), ("$m", some "")] b).getD "")) ∧
    renderBlock [("$m", some "")] "$m" = none ∧
    renderBlock [("$e", some "X")] "$e!" = some (jsReplaceFirst "$e!" "$e" "X") := by
  refine ⟨claim_C7.1 defaultConf _, ?_, ?_⟩
  · exact claim_C7.2.2.2.1 [("$m", some "")] "$m" "$m" (by rfl)
  · exact claim_C7.2.2.2.2.1 [("$e", some "X")] "$e!" "$e" "X" (by rfl) (by decide)

/-! ## Claim C4 (code bug): the global-configuration setter is inert -/

/-- The partial override of the C4 failing input. -/
def c4override : PartialConf := { template := some ["$error"] }

/-- C4 (code bug): `setGlobalConfig` merges the override into the
`globalConfig` variable, but rendering reads the module-level alias
`conf` captured at load time (`const conf = globalConfig`), which still
refers to the original record; so a message constructed after the setter
call is still rendered with the default template — here
`"[L] E: x"` instead of the overridden template's `"E"`. -/
theorem claim_C4 :
    (setGlobalConfig c4override initState).globalConfig.template = ["$error"] ∧
    (setGlobalConfig c4override initState).conf = defaultConf ∧
    (mkScopedInstance (setGlobalConfig c4override initState).conf
      ⟨0, "E", some "L", "L:global", 0⟩ [.vstr "x"] none).message = "[L] E: x" ∧
    interpolateTemplate { defaultConf with template := ["$error"] }
      [("$label", some "L"), ("$message", some "x"), ("$error", some "E"),
       ("$file", none)] = "E" := by
  refine ⟨rfl, rfl, ?_, ?_⟩ <;> decide

/-! ## Claim C9: encoding-failure fallback -/

/-- A construction argument whose structured encoding throws: a truthy
plain object whose `JSON.stringify` fails (e.g. a circular structure). -/
def isCyclicObjArg : JSVal → Bool
  | .vobj _ none _ => true
  | _ => false

theorem encodeAll_none (args : List JSVal) (v : JSVal) (hv : v ∈ args)
    (he : encodeItem v = none) : encodeAll args = none := by
  induction args with
  | nil => cases hv
  | cons a rest ih =>
    cases hv with
    | head => simp [encodeAll, he]
    | tail _ hmem =>
      cases ha : encodeItem a with
      | none => simp [encodeAll, ha]
      | some sa => simp [encodeAll, ha, ih hmem]

/-- C9: when a construction argument list contains a value whose
structured encoding throws, the encoder recovers locally (the model is
total: nothing is raised): `safeEncode` falls back to the plain
delimiter-join of the whole argument list, the constructed instance's
pre-template message is that fallback text, and the rendered message
still contains the kind's name as a substring. -/
theorem claim_C9 (c : ExcpConf) (k : KindDescriptor) (args : List JSVal)
    (stack : Option String) (v : JSVal) (hv : v ∈ args)
    (hcyc : isCyclicObjArg v = true) (hc : c.encoding = .json) :
    safeEncode c args = jsJoin c.delimiter args ∧
    (mkScopedInstance defaultConf k args stack).originalMessage =
      jsJoin defaultConf.delimiter args ∧
    List.IsInfix k.name.data (mkScopedInstance defaultConf k args stack).message.data := by
  have henc : encodeItem v = none := by
    cases v with
    | vobj msg j r =>
      cases j with
      | none => simp [encodeItem, jsFalsy]
      | some jr => simp [isCyclicObjArg] at hcyc
    | vundef => simp [isCyclicObjArg] at hcyc
    | vnull => simp [isCyclicObjArg] at hcyc
    | vbool b => simp [isCyclicObjArg] at hcyc
    | vint n => simp [isCyclicObjArg] at hcyc
    | vstr s2 => simp [isCyclicObjArg] at hcyc
    | verr e => simp [isCyclicObjArg] at hcyc
  have hall := encodeAll_none args v hv henc
  have hfall : ∀ c2 : ExcpConf, c2.encoding = .json →
      safeEncode c2 args = jsJoin c2.delimiter args := by
    intro c2 hc2
    unfold safeEncode
    rw [hc2, hall]
    simp
  refine ⟨hfall c hc, ?_, ?_⟩
  · rw [mkScoped_originalMessage, hfall defaultConf rfl]
  · rw [mkScoped_message, interp_default]
    exact ⟨labelPartOf k.labelName,
      msgPartOf (safeEncode defaultConf args) ++ filePartOf (fileNameOf stack),
      by simp⟩

/-- Closed instantiation of `claim_C9` at a circular-object argument. -/
theorem claim_C9_witness :
    safeEncode defaultConf
        [.vstr "data:", .vobj none none "[object Object]"] =
      jsJoin defaultConf.delimiter
        [.vstr "data:", .vobj none none "[object Object]"] ∧
    (mkScopedInstance defaultConf ⟨0, "CircularError", some "L", "L:global", 0⟩
        [.vstr "data:", .vobj none none "[object Object]"] none).originalMessage =
      jsJoin defaultConf.delimiter
        [.vstr "data:", .vobj none none "[object Object]"] ∧
    List.IsInfix "CircularError".data
      (mkScopedInstance defaultConf ⟨0, "CircularError", some "L", "L:global", 0⟩
        [.vstr "data:", .vobj none none "[object Object]"] none).message.data :=
  claim_C9 defaultConf ⟨0, "CircularError", some "L", "L:global", 0⟩
    [.vstr "data:", .vobj none none "[object Object]"] none
    (.vobj none none "[object Object]")
    (List.Mem.tail _ (List.Mem.head _)) rfl rfl

/-! ## Claim C8: numeric kind names and the `code` field -/

theorem digit_not_ws (c : Char) (h : c.isDigit = true) : jsIsWs c = false := by
  cases hc : jsIsWs c
  · rfl
  · exfalso
    simp only [jsIsWs, Bool.or_eq_true, decide_eq_true_eq] at hc
    rcases hc with (((((((h1 | h1) | h1) | h1) | h1) | h1) | h1) | h1) <;>
      (subst h1; exact absurd h (by decide))

theorem jsTrimList_eq_self (l : List Char) (h : ∀ c ∈ l, jsIsWs c = false) :
    jsTrimList l = l := by
  unfold jsTrimList
  have h1 : l.dropWhile jsIsWs = l := by
    cases l with
    | nil => rfl
    | cons c cs =>
      have hc := h c (List.mem_cons_self c cs)
      simp [List.dropWhile_cons, hc]
  rw [h1]
  have h2 : l.reverse.dropWhile jsIsWs = l.reverse := by
    cases hr : l.reverse with
    | nil => rfl
    | cons c cs =>
      have hc : c ∈ l := by
        rw [← List.mem_reverse, hr]
        exact List.mem_cons_self c cs
      simp [List.dropWhile_cons, h c hc]
  rw [h2, List.reverse_reverse]

theorem takeWhile_all (p : Char → Bool) (l : List Char)
    (h : ∀ c ∈ l, p c = true) : l.takeWhile p = l := by
  induction l with
  | nil => rfl
  | cons c cs ih =>
    have hc := h c (List.mem_cons_self c cs)
    have hrest := ih (fun d hd => h d (List.mem_cons_of_mem c hd))
    simp [List.takeWhile_cons, hc, hrest]

theorem parseUnsignedDec_digits (l : List Char) (hne : l ≠ [])
    (hdig : l.all Char.isDigit = true) :
    parseUnsignedDec l = .val (digitsVal 10 l) := by
  have hInf : l ≠ "Infinity".data := by
    intro h
    rw [h] at hdig
    exact absurd hdig (by decide)
  have hall : ∀ c ∈ l, c.isDigit = true := by
    intro c hc
    exact List.all_eq_true.mp hdig c hc
  have hip : l.takeWhile Char.isDigit = l := takeWhile_all _ l hall
  unfold parseUnsignedDec
  rw [if_neg hInf]
  simp only [hip, List.drop_length]
  simp [hne]

theorem jsToNumber_digits (s : String) (hne : s.data ≠ [])
    (hdig : s.data.all Char.isDigit = true) :
    jsToNumber s = .val (digitsVal 10 s.data) := by
  have hall : ∀ c ∈ s.data, c.isDigit = true := by
    intro c hc
    exact List.all_eq_true.mp hdig c hc
  have htrim : jsTrimList s.data = s.data :=
    jsTrimList_eq_self s.data (fun c hc => digit_not_ws c (hall c hc))
  have hp := parseUnsignedDec_digits s.data hne hdig
  unfold jsToNumber
  rw [htrim]
  split
  · next heq => exact absurd heq hne
  · next x rest heq =>
    have hx : x.isDigit = true := by
      apply hall
      rw [heq]
      exact List.mem_cons_of_mem _ (List.mem_cons_self x rest)
    have hxne1 : ¬ (x = 'x' ∨ x = 'X') := by
      rintro (h1 | h1) <;> (subst h1; exact absurd hx (by decide))
    have hxne2 : ¬ (x = 'o' ∨ x = 'O') := by
      rintro (h1 | h1) <;> (subst h1; exact absurd hx (by decide))
    have hxne3 : ¬ (x = 'b' ∨ x = 'B') := by
      rintro (h1 | h1) <;> (subst h1; exact absurd hx (by decide))
    rw [if_neg hxne1, if_neg hxne2, if_neg hxne3, ← heq]
    exact hp
  · next heq =>
    have : '+' ∈ s.data := by
      rw [heq]
      exact List.mem_cons_self _ _
    exact absurd (hall _ this) (by decide)
  · next heq =>
    have : '-' ∈ s.data := by
      rw [heq]
      exact List.mem_cons_self _ _
    exact absurd (hall _ this) (by decide)
  · exact hp

/-- Written from the claim's words: a string that parses as a base-10
integer (optional sign, then only decimal digits). -/
def isBase10IntegerStr (s : String) : Bool :=
  match s.data with
  | '-' :: rest => decide (rest ≠ []) && rest.all Char.isDigit
  | '+' :: rest => decide (rest ≠ []) && rest.all Char.isDigit
  | l => decide (l ≠ []) && l.all Char.isDigit

/-- C8 (amended): the `code` field of every constructed instance is
`Number(name)` when that conversion is not NaN and absent otherwise; in
particular every all-digit name (e.g. `"404"`) yields its base-10 value,
and an alphabetic name (e.g. `"NotFound"`) yields no code.  (The
original claim's "only for base-10 integer names" is refuted by
`claim_C8_counterexample`: `Number` also accepts the empty string, which
yields `code === 0`.) -/
theorem claim_C8 :
    (∀ (c : ExcpConf) (k : KindDescriptor) (args : List JSVal)
      (stack : Option String),
      (mkScopedInstance c k args stack).code =
        match jsToNumber k.name with
        | .nan => none
        | n => some n)
    ∧ (∀ s : String, s.data ≠ [] → s.data.all Char.isDigit = true →
        jsToNumber s = .val (digitsVal 10 s.data))
    ∧ jsToNumber "404" = .val 404 ∧ jsToNumber "NotFound" = .nan ∧
      jsToNumber "" = .val 0 := by
  refine ⟨?_, jsToNumber_digits, by decide, by decide, by decide⟩
  intro c k args stack
  exact mkScoped_code c k args stack

/-- Closed instantiation of `claim_C8`: the kind named `"404"` carries
`code = 404`. -/
theorem claim_C8_witness :
    jsToNumber "404" = .val (digitsVal 10 "404".data) ∧
    (mkScopedInstance defaultConf ⟨0, "404", some "L", "L:global", 0⟩ [] none).code =
      some (.val 404) := by
  constructor
  · exact claim_C8.2.1 "404" (by decide) (by decide)
  · rw [claim_C8.1 defaultConf ⟨0, "404", some "L", "L:global", 0⟩ [] none]
    decide

/-- The claim as frozen is false: the empty kind name does not parse as
a base-10 integer, yet its instances carry `code = 0`, because JS
`Number("")` is `0`, not NaN. -/
theorem claim_C8_counterexample :
    (mkScopedInstance defaultConf ⟨0, "", some "L", "L:global", 0⟩ [] none).code =
      some (.val 0) ∧
    isBase10IntegerStr "" = false := by
  constructor
  · rw [mkScoped_code]
    decide
  · rfl

/-! ## Claim C5: `cast` and error-like values -/

theorem setCause_cause (e : ErrObj) (cz : Option ErrObj) :
    (setCause e cz).cause = cz := by
  cases e; rfl

theorem setCause_causeNonEnum (e : ErrObj) (cz : Option ErrObj) :
    (setCause e cz).causeNonEnum = true := by
  cases e; rfl

theorem setCause_cls (e : ErrObj) (cz : Option ErrObj) :
    (setCause e cz).cls = e.cls := by
  cases e; rfl

theorem setCause_originalMessage (e : ErrObj) (cz : Option ErrObj) :
    (setCause e cz).originalMessage = e.originalMessage := by
  cases e; rfl

theorem mkScoped_cls (c : ExcpConf) (k : KindDescriptor) (args : List JSVal)
    (stack : Option String) :
    (mkScopedInstance c k args stack).cls = .scoped k.classId := by
  simp [mkScopedInstance, ErrObj.cls]

/-- C5 (amended): `cast` returns a value already of the target kind
unchanged; a value that is an instance of the host error type (or of a
different exception kind) yields a new instance built from its message
text with the value attached as a non-enumerable `cause`; but a plain
object carrying a `message` field yields a new instance built from
`String(message)` with **no** cause attached (the original claim's
"cause also for plain message-objects" is refuted by
`claim_C5_counterexample`). -/
theorem claim_C5 :
    (∀ (k : KindDescriptor) (e : ErrObj) (fs : Option String),
      e.cls = .scoped k.classId → cast defaultConf k (.verr e) fs = e)
    ∧ (∀ (k : KindDescriptor) (e : ErrObj) (fs : Option String),
        e.cls ≠ .scoped k.classId →
        (cast defaultConf k (.verr e) fs).cause = some e ∧
        (cast defaultConf k (.verr e) fs).causeNonEnum = true ∧
        (cast defaultConf k (.verr e) fs).cls = .scoped k.classId ∧
        (cast defaultConf k (.verr e) fs).originalMessage = e.message)
    ∧ (∀ (k : KindDescriptor) (mv : JSVal) (j : Option String) (r : String)
        (fs : Option String),
        (cast defaultConf k (.vobj (some mv) j r) fs).cause = none ∧
        (cast defaultConf k (.vobj (some mv) j r) fs).cls = .scoped k.classId ∧
        (cast defaultConf k (.vobj (some mv) j r) fs).originalMessage =
          jsToString mv) := by
  refine ⟨?_, ?_, ?_⟩
  · intro k e fs h
    show (if e.cls = ErrClass.scoped k.classId then e
      else setCause (mkScopedInstance defaultConf k [.vstr e.message] fs) (some e)) = e
    rw [if_pos h]
  · intro k e fs h
    have hc : cast defaultConf k (.verr e) fs =
        setCause (mkScopedInstance defaultConf k [.vstr e.message] fs) (some e) := by
      show (if e.cls = ErrClass.scoped k.classId then e
        else setCause (mkScopedInstance defaultConf k [.vstr e.message] fs) (some e)) = _
      rw [if_neg h]
    rw [hc]
    refine ⟨setCause_cause _ _, setCause_causeNonEnum _ _, ?_, ?_⟩
    · rw [setCause_cls, mkScoped_cls]
    · rw [setCause_originalMessage, mkScoped_originalMessage]
      exact safeEncode_single_str defaultConf rfl e.message
  · intro k mv j r fs
    refine ⟨?_, ?_, ?_⟩
    · show (mkScopedInstance defaultConf k [.vstr (jsToString mv)] fs).cause = none
      rw [mkScoped_cause]
      exact getPossibleCause_single_str _
    · show (mkScopedInstance defaultConf k [.vstr (jsToString mv)] fs).cls = _
      exact mkScoped_cls _ _ _ _
    · show (mkScopedInstance defaultConf k
        [.vstr (jsToString mv)] fs).originalMessage = _
      rw [mkScoped_originalMessage]
      exact safeEncode_single_str defaultConf rfl _

/-- The kind and values of the C5 counterexample and witness. -/
def c5kind : KindDescriptor := ⟨0, "ApiError", some "L", "L:global", 0⟩

/-- A plain object with a `message` field that is not a native error. -/
def c5obj : JSVal := .vobj (some (.vstr "bad request")) (some "\x7b\x7d") "[object Object]"

/-- A host `Error` instance with message `"boom"`. -/
def c5nat : ErrObj := .mk .native "Error" "boom" none true none 0 none none "boom"

/-- The claim as frozen is false: `cast` of a plain object carrying a
`message` field constructs the instance from the message text but does
**not** attach the object as `cause`. -/
theorem claim_C5_counterexample :
    (cast defaultConf c5kind c5obj none).cause = none ∧
    (cast defaultConf c5kind c5obj none).message = "[L] ApiError: bad request" := by
  constructor
  · rfl
  · decide

/-- Closed instantiation of `claim_C5` on a native error value. -/
theorem claim_C5_witness :
    (cast defaultConf c5kind (.verr c5nat) none).cause = some c5nat ∧
    (cast defaultConf c5kind (.verr c5nat) none).causeNonEnum = true ∧
    (cast defaultConf c5kind (.verr c5nat) none).cls = .scoped c5kind.classId ∧
    (cast defaultConf c5kind (.verr c5nat) none).originalMessage = c5nat.message :=
  claim_C5.2.1 c5kind c5nat none (by decide)

/-! ## Claim C6: effective scope key -/

/-- C6 (amended): for every request that registers a kind, the stored
scope key is `label ++ ":" ++ defaultScope` when a non-empty label is
supplied — with no deduplication even when the label coincides with the
inferred location — and `defaultScope` alone when the label is absent or
empty. -/
theorem claim_C6 (dirname : String) (opts : DefOptions) (stack : Option String)
    (st : GlobalState)
    (hfresh : lookupPair st (effectiveScopeKey dirname opts stack)
      opts.errorName = none) :
    (defineScopedExcption dirname opts stack st).1.scopeKey =
      match opts.labelName with
      | some l => if l = "" then effectiveScopeName dirname stack
          else l ++ ":" ++ effectiveScopeName dirname stack
      | none => effectiveScopeName dirname stack := by
  unfold defineScopedExcption
  unfold effectiveScopeKey at hfresh
  cases hm : lookupA st.defs
      (labeledScopeKey opts.labelName (effectiveScopeName dirname stack)) with
  | none =>
    rw [defineCore_new_scope _ opts st hm]
    show labeledScopeKey opts.labelName (effectiveScopeName dirname stack) = _
    unfold labeledScopeKey
    rfl
  | some m =>
    unfold lookupPair at hfresh
    rw [hm] at hfresh
    simp only [Option.some_bind] at hfresh
    rw [defineCore_miss _ opts st m hm hfresh]
    show labeledScopeKey opts.labelName (effectiveScopeName dirname stack) = _
    unfold labeledScopeKey
    rfl

/-- The claim as frozen is false: when the label coincides with the
inferred location, the key is the plain join `"global:global"`, not the
deduplicated `"global"`. -/
theorem claim_C6_counterexample :
    (defineScopedExcption "" ⟨"E", some "global"⟩ none initState).1.scopeKey =
      "global:global" ∧ ("global:global" : String) ≠ "global" := by
  constructor
  · decide
  · decide

/-- Closed instantiation of `claim_C6`: a non-empty label `"L"` at an
unresolvable call site yields the key `"L:global"`. -/
theorem claim_C6_witness :
    (defineScopedExcption "" ⟨"E", some "L"⟩ none initState).1.scopeKey =
      "L:global" := by
  have h := claim_C6 "" ⟨"E", some "L"⟩ none initState (by rfl)
  rw [h]
  decide

/-! ## Claim C3: snapshot round trip -/

theorem word_not_ws (c : Char) (h : isWordChar c = true) : jsIsWs c = false := by
  cases hc : jsIsWs c
  · rfl
  · exfalso
    simp only [jsIsWs, Bool.or_eq_true, decide_eq_true_eq] at hc
    rcases hc with (((((((h1 | h1) | h1) | h1) | h1) | h1) | h1) | h1) <;>
      (subst h1; exact absurd h (by decide))

theorem dropWhile_head_false (p : Char → Bool) (l : List Char) (c : Char)
    (hc : l.head? = some c) (hp : p c = false) : l.dropWhile p = l := by
  cases l with
  | nil => rfl
  | cons a rest =>
    simp only [List.head?_cons, Option.some.injEq] at hc
    subst hc
    simp [List.dropWhile_cons, hp]

theorem findLabelEnd_through (l rest : List Char)
    (hl : ∀ c ∈ l, c ≠ ']' ∧ c ≠ '\n') :
    findLabelEnd (l ++ (']' :: ' ' :: rest)) =
      some ((' ' :: rest).dropWhile jsIsWs) := by
  induction l with
  | nil =>
    show findLabelEnd (']' :: ' ' :: rest) = _
    unfold findLabelEnd
    simp [show jsIsWs ' ' = true from rfl]
  | cons c cs ih =>
    have hc := hl c (List.mem_cons_self c cs)
    show findLabelEnd (c :: (cs ++ (']' :: ' ' :: rest))) = _
    unfold findLabelEnd
    have h1 : (c = ']' && (match (cs ++ (']' :: ' ' :: rest)).head? with
        | some w => jsIsWs w
        | none => false)) = false := by
      simp [hc.1]
    rw [h1]
    simp only [Bool.false_eq_true, if_false]
    rw [if_neg hc.2]
    exact ih (fun d hd => hl d (List.mem_cons_of_mem c hd))

theorem stripLabelPrefix_eq (s : String) (Ld rest : List Char)
    (hs : s.data = '[' :: (Ld ++ (']' :: ' ' :: rest)))
    (hl : ∀ c ∈ Ld, c ≠ ']' ∧ c ≠ '\n') :
    stripLabelPrefix s = ⟨(' ' :: rest).dropWhile jsIsWs⟩ := by
  unfold stripLabelPrefix
  rw [hs]
  simp only
  rw [findLabelEnd_through Ld rest hl]

theorem takeWhile_append_all (p : Char → Bool) (a b : List Char)
    (ha : ∀ c ∈ a, p c = true) :
    (a ++ b).takeWhile p = a ++ b.takeWhile p := by
  induction a with
  | nil => rfl
  | cons c cs ih =>
    have hc := ha c (List.mem_cons_self c cs)
    simp only [List.cons_append, List.takeWhile_cons, hc, if_true]
    rw [ih (fun d hd => ha d (List.mem_cons_of_mem c hd))]

theorem stripNamePrefix_eq (s : String) (Nd m : List Char)
    (hs : s.data = Nd ++ (':' :: ' ' :: m)) (hN : Nd ≠ [])
    (hNw : ∀ c ∈ Nd, isWordChar c = true) :
    stripNamePrefix s = ⟨(' ' :: m).dropWhile jsIsWs⟩ := by
  have hrun : (Nd ++ (':' :: ' ' :: m)).takeWhile isWordChar = Nd := by
    rw [takeWhile_append_all isWordChar Nd _ hNw]
    simp [List.takeWhile_cons, isWordChar]
  have hdrop : (Nd ++ (':' :: ' ' :: m)).drop Nd.length = ':' :: ' ' :: m :=
    List.drop_left Nd _
  unfold stripNamePrefix
  rw [hs]
  simp [hrun, hdrop, hN]

/-- The rendered message of a scoped instance with non-empty label,
non-empty single-string argument and unresolvable file name, at the
character level. -/
theorem scoped_message_data (L N m : String) (cid idx : Nat) (key : String)
    (stack : Option String) (hL : L ≠ "") (hm : m ≠ "")
    (hs : fileNameOf stack = none) :
    (mkScopedInstance defaultConf ⟨cid, N, some L, key, idx⟩
      [.vstr m] stack).message.data =
    '[' :: (L.data ++ (']' :: ' ' :: (N.data ++ (':' :: ' ' :: m.data)))) := by
  rw [mkScoped_message]
  show (interpolateTemplate defaultConf
    [("$label", some L), ("$message", some (safeEncode defaultConf [.vstr m])),
     ("$error", some N), ("$file", fileNameOf stack)]).data = _
  rw [safeEncode_single_str defaultConf rfl m, hs, interp_default]
  simp [labelPartOf, labelBlockOf, msgPartOf, msgBlockOf, filePartOf, fileBlockOf,
    hL, hm, List.append_assoc]

/-- C3 (amended): for an instance built from one plain string argument,
with a non-empty label free of `]` and newlines, a non-empty name made
of word characters, a non-empty already-trimmed message and no resolved
file name on either capture, `from(x.toObject())` — and therefore
`clone()` — reproduces `message`, `name` and `cause`, and `toObject`
recovers the raw message exactly.  (With a cause attached the law fails:
see `claim_C3_counterexample`.) -/
theorem claim_C3 (L N m : String) (cid idx : Nat) (key : String)
    (stack1 stack2 : Option String)
    (hL : L ≠ "") (hLc : ∀ c ∈ L.data, c ≠ ']' ∧ c ≠ '\n')
    (hN : N.data ≠ []) (hNw : ∀ c ∈ N.data, isWordChar c = true)
    (hm : m ≠ "") (hmh : m.data.dropWhile jsIsWs = m.data)
    (hmr : m.data.reverse.dropWhile jsIsWs = m.data.reverse)
    (hs1 : fileNameOf stack1 = none) (hs2 : fileNameOf stack2 = none) :
    (toObject (mkScopedInstance defaultConf ⟨cid, N, some L, key, idx⟩
      [.vstr m] stack1)).rawMessage = m ∧
    clone defaultConf ⟨cid, N, some L, key, idx⟩
        (mkScopedInstance defaultConf ⟨cid, N, some L, key, idx⟩ [.vstr m] stack1)
        stack2 =
      fromSnapshot defaultConf ⟨cid, N, some L, key, idx⟩
        (toObject (mkScopedInstance defaultConf ⟨cid, N, some L, key, idx⟩
          [.vstr m] stack1)) stack2 ∧
    (fromSnapshot defaultConf ⟨cid, N, some L, key, idx⟩
      (toObject (mkScopedInstance defaultConf ⟨cid, N, some L, key, idx⟩
        [.vstr m] stack1)) stack2).message =
      (mkScopedInstance defaultConf ⟨cid, N, some L, key, idx⟩
        [.vstr m] stack1).message ∧
    (fromSnapshot defaultConf ⟨cid, N, some L, key, idx⟩
      (toObject (mkScopedInstance defaultConf ⟨cid, N, some L, key, idx⟩
        [.vstr m] stack1)) stack2).name =
      (mkScopedInstance defaultConf ⟨cid, N, some L, key, idx⟩
        [.vstr m] stack1).name ∧
    (fromSnapshot defaultConf ⟨cid, N, some L, key, idx⟩
      (toObject (mkScopedInstance defaultConf ⟨cid, N, some L, key, idx⟩
        [.vstr m] stack1)) stack2).cause =
      (mkScopedInstance defaultConf ⟨cid, N, some L, key, idx⟩
        [.vstr m] stack1).cause := by
  have hNne : N ≠ "" := by
    intro h
    rw [h] at hN
    exact hN rfl
  obtain ⟨na, nrest, hd⟩ : ∃ a rest, N.data = a :: rest := by
    cases hdN : N.data with
    | nil => exact absurd hdN hN
    | cons a rest => exact ⟨a, rest, rfl⟩
  have hata : jsIsWs na = false :=
    word_not_ws na (hNw na (by rw [hd]; exact List.mem_cons_self _ _))
  have hmdata : (' ' :: m.data).dropWhile jsIsWs = m.data := by
    rw [List.dropWhile_cons]
    simp only [show jsIsWs ' ' = true from rfl, if_true]
    exact hmh
  -- the raw message recovered by toObject
  have hraw : (toObject (mkScopedInstance defaultConf ⟨cid, N, some L, key, idx⟩
      [.vstr m] stack1)).rawMessage = m := by
    show jsTrim (stripNamePrefix (stripLabelPrefix
      (mkScopedInstance defaultConf ⟨cid, N, some L, key, idx⟩
        [.vstr m] stack1).message)) = m
    rw [stripLabelPrefix_eq _ L.data (N.data ++ (':' :: ' ' :: m.data))
      (scoped_message_data L N m cid idx key stack1 hL hm hs1) hLc]
    have hdropN : ((' ' :: (N.data ++ (':' :: ' ' :: m.data))).dropWhile jsIsWs) =
        N.data ++ (':' :: ' ' :: m.data) := by
      rw [List.dropWhile_cons]
      simp only [show jsIsWs ' ' = true from rfl, if_true]
      rw [hd]
      simp [List.dropWhile_cons, hata]
    rw [stripNamePrefix_eq ⟨(' ' :: (N.data ++ (':' :: ' ' :: m.data))).dropWhile jsIsWs⟩
      N.data m.data (by rw [hdropN]) hN hNw]
    show (⟨jsTrimList ((' ' :: m.data).dropWhile jsIsWs)⟩ : String) = m
    rw [hmdata]
    unfold jsTrimList
    rw [hmh, hmr, List.reverse_reverse]
  have hcause : (toObject (mkScopedInstance defaultConf ⟨cid, N, some L, key, idx⟩
      [.vstr m] stack1)).cause = none := by
    show (mkScopedInstance defaultConf ⟨cid, N, some L, key, idx⟩
      [.vstr m] stack1).cause = none
    rw [mkScoped_cause]
    exact getPossibleCause_single_str m
  have hinst_msg :
      (mkScopedInstance defaultConf ⟨cid, N, some L, key, idx⟩ [.vstr m] stack2).message =
      (mkScopedInstance defaultConf ⟨cid, N, some L, key, idx⟩ [.vstr m] stack1).message := by
    rw [mkScoped_message, mkScoped_message]
    show interpolateTemplate defaultConf
        [("$label", some L), ("$message", some (safeEncode defaultConf [.vstr m])),
         ("$error", some N), ("$file", fileNameOf stack2)] = _
    rw [hs1, hs2]
  have hexp : fromSnapshot defaultConf ⟨cid, N, some L, key, idx⟩
      (toObject (mkScopedInstance defaultConf ⟨cid, N, some L, key, idx⟩
        [.vstr m] stack1)) stack2 =
      (match (toObject (mkScopedInstance defaultConf ⟨cid, N, some L, key, idx⟩
          [.vstr m] stack1)).stack with
       | some s => if s = "" then
            mkScopedInstance defaultConf ⟨cid, N, some L, key, idx⟩ [.vstr m] stack2
          else setStack (mkScopedInstance defaultConf ⟨cid, N, some L, key, idx⟩
            [.vstr m] stack2) (some s)
       | none => mkScopedInstance defaultConf ⟨cid, N, some L, key, idx⟩
          [.vstr m] stack2) := by
    unfold fromSnapshot
    rw [hcause, hraw]
  refine ⟨hraw, rfl, ?_, ?_, ?_⟩
  · rw [hexp]
    cases hst : (toObject (mkScopedInstance defaultConf ⟨cid, N, some L, key, idx⟩
        [.vstr m] stack1)).stack with
    | none => exact hinst_msg
    | some s =>
      dsimp only
      by_cases hse : s = ""
      · rw [if_pos hse]
        exact hinst_msg
      · rw [if_neg hse, setStack_message]
        exact hinst_msg
  · rw [hexp]
    cases hst : (toObject (mkScopedInstance defaultConf ⟨cid, N, some L, key, idx⟩
        [.vstr m] stack1)).stack with
    | none => rw [mkScoped_name, mkScoped_name]
    | some s =>
      dsimp only
      by_cases hse : s = ""
      · rw [if_pos hse, mkScoped_name, mkScoped_name]
      · rw [if_neg hse, setStack_name, mkScoped_name, mkScoped_name]
  · rw [hexp]
    cases hst : (toObject (mkScopedInstance defaultConf ⟨cid, N, some L, key, idx⟩
        [.vstr m] stack1)).stack with
    | none => rw [mkScoped_cause, mkScoped_cause]
    | some s =>
      dsimp only
      by_cases hse : s = ""
      · rw [if_pos hse, mkScoped_cause, mkScoped_cause]
      · rw [if_neg hse, setStack_cause, mkScoped_cause, mkScoped_cause]

/-- The kind of the C3 counterexample and witness. -/
def c3kind : KindDescriptor := ⟨0, "BasicError", some "L", "L:global", 0⟩

/-- A host `Error` with message `"boom"`, used as an attached cause. -/
def c3nat : ErrObj := .mk .native "Error" "boom" none true none 0 none none "boom"

/-- An instance constructed with a cause attached. -/
def c3x : ErrObj := mkScopedInstance defaultConf c3kind [.vstr "timeout", .verr c3nat] none

/-- The claim as frozen is false for instances with a cause attached:
the cause's `JSON.stringify` rendering (`{}` for a host error) is baked
into the message at construction, `toObject`'s `rawMessage` keeps it,
and the reconstruction encodes the cause *again*, so the round-tripped
message gains a second `" {}"`. -/
theorem claim_C3_counterexample :
    c3x.cause = some c3nat ∧
    c3x.message = "[L] BasicError: timeout \x7b\x7d" ∧
    (fromSnapshot defaultConf c3kind (toObject c3x) none).message =
      "[L] BasicError: timeout \x7b\x7d \x7b\x7d" ∧
    (fromSnapshot defaultConf c3kind (toObject c3x) none).message ≠ c3x.message := by
  refine ⟨rfl, by decide, by decide, by decide⟩

/-- Closed instantiation of `claim_C3` for a cause-less instance. -/
theorem claim_C3_witness :
    (toObject (mkScopedInstance defaultConf c3kind [.vstr "timeout"] none)).rawMessage =
      "timeout" ∧
    (fromSnapshot defaultConf c3kind
        (toObject (mkScopedInstance defaultConf c3kind [.vstr "timeout"] none))
        none).message =
      (mkScopedInstance defaultConf c3kind [.vstr "timeout"] none).message := by
  have h := claim_C3 "L" "BasicError" "timeout" 0 0 "L:global" none none
    (by decide) (by decide) (by decide) (by decide) (by decide)
    (by decide) (by decide) rfl rfl
  exact ⟨h.1, h.2.2.1⟩

end ExcSpec
